import Mathlib

/-!
Verification of the terminal-temps weather renderer (src/index.ts).

The TypeScript core is shallowly embedded here:

* JavaScript numbers are modelled by `JSNum`: a finite rational, one of the
  two infinities, or `NaN`.  The upstream payload is parsed JSON, so every
  number entering the core is finite; infinities and `NaN` arise only inside
  the core, from `Math.max()` / `Math.min()` over an empty spread
  (`-Infinity` / `Infinity`) and from `0 / 0` in the temperature scaling.
* Rational arithmetic is written with `Rat.divInt` based helpers
  (`qadd`, `qsub`, `qmul`, `qdiv`) so that every definition evaluates by
  kernel reduction; bridge lemmas identify them with `+ - * /` on `ℚ`.
* `Math.round` is round-half-up (`Math.round(x) = ⌊x + 1/2⌋` for finite x),
  modelled by `jsRound`.
* Strings are Lean `String`s; `.slice(-9)`, `.slice(0, 4)`, `.repeat` and
  `Array.prototype.join` are modelled by `jsSliceLast`, `jsSliceFirst`,
  `strRepeat` and `jsJoin`.
-/

/-- JS `Math.round` on a finite number: round half-up, `⌊q + 1/2⌋`, computed
with `Rat.floor` so it reduces in the kernel. -/
def jsRound (q : ℚ) : ℤ := Rat.floor (Rat.divInt (q.num * 2 + q.den) (q.den * 2))

/-- Computable addition on `ℚ` (`Rat.add` is irreducible in Mathlib). -/
def qadd (a b : ℚ) : ℚ := Rat.divInt (a.num * b.den + b.num * a.den) (a.den * b.den)

/-- Computable subtraction on `ℚ`. -/
def qsub (a b : ℚ) : ℚ := Rat.divInt (a.num * b.den - b.num * a.den) (a.den * b.den)

/-- Computable multiplication on `ℚ`. -/
def qmul (a b : ℚ) : ℚ := Rat.divInt (a.num * b.num) (a.den * b.den)

/-- Computable division on `ℚ` (gives `0` for division by `0`, like `/`). -/
def qdiv (a b : ℚ) : ℚ := Rat.divInt (a.num * b.den) (a.den * b.num)

/-- A JavaScript number: a finite value, `Infinity`, `-Infinity`, or `NaN`. -/
inductive JSNum where
  | num (q : ℚ)
  | posInf
  | negInf
  | nan
deriving DecidableEq

/-- JS subtraction, with the IEEE special cases the renderer can hit. -/
def JSNum.sub : JSNum → JSNum → JSNum
  | JSNum.nan, _ => JSNum.nan
  | _, JSNum.nan => JSNum.nan
  | JSNum.num a, JSNum.num b => JSNum.num (qsub a b)
  | JSNum.posInf, JSNum.posInf => JSNum.nan
  | JSNum.posInf, _ => JSNum.posInf
  | JSNum.negInf, JSNum.negInf => JSNum.nan
  | JSNum.negInf, _ => JSNum.negInf
  | JSNum.num _, JSNum.posInf => JSNum.negInf
  | JSNum.num _, JSNum.negInf => JSNum.posInf

/-- JS multiplication (zero times an infinity is `NaN`). -/
def JSNum.mul : JSNum → JSNum → JSNum
  | JSNum.nan, _ => JSNum.nan
  | _, JSNum.nan => JSNum.nan
  | JSNum.num a, JSNum.num b => JSNum.num (qmul a b)
  | JSNum.posInf, JSNum.posInf => JSNum.posInf
  | JSNum.posInf, JSNum.negInf => JSNum.negInf
  | JSNum.negInf, JSNum.posInf => JSNum.negInf
  | JSNum.negInf, JSNum.negInf => JSNum.posInf
  | JSNum.posInf, JSNum.num b =>
    if 0 < b then JSNum.posInf else if b < 0 then JSNum.negInf else JSNum.nan
  | JSNum.num a, JSNum.posInf =>
    if 0 < a then JSNum.posInf else if a < 0 then JSNum.negInf else JSNum.nan
  | JSNum.negInf, JSNum.num b =>
    if 0 < b then JSNum.negInf else if b < 0 then JSNum.posInf else JSNum.nan
  | JSNum.num a, JSNum.negInf =>
    if 0 < a then JSNum.negInf else if a < 0 then JSNum.posInf else JSNum.nan

/-- JS division.  Division by zero follows the sign of the numerator
(`0 / 0` is `NaN`); the model's zero is the unsigned `+0`. -/
def JSNum.div : JSNum → JSNum → JSNum
  | JSNum.nan, _ => JSNum.nan
  | _, JSNum.nan => JSNum.nan
  | JSNum.num a, JSNum.num b =>
    if b = 0 then
      if a = 0 then JSNum.nan else if 0 < a then JSNum.posInf else JSNum.negInf
    else JSNum.num (qdiv a b)
  | JSNum.num _, JSNum.posInf => JSNum.num 0
  | JSNum.num _, JSNum.negInf => JSNum.num 0
  | JSNum.posInf, JSNum.num b => if 0 ≤ b then JSNum.posInf else JSNum.negInf
  | JSNum.negInf, JSNum.num b => if 0 ≤ b then JSNum.negInf else JSNum.posInf
  | _, JSNum.posInf => JSNum.nan
  | _, JSNum.negInf => JSNum.nan

/-- JS `Math.round`: round-half-up on finite values, identity on the rest. -/
def JSNum.round : JSNum → JSNum
  | JSNum.num q => JSNum.num ((jsRound q : ℤ) : ℚ)
  | x => x

/-- JS `>=` as a boolean: every comparison with `NaN` is `false`. -/
def JSNum.ge : JSNum → JSNum → Bool
  | JSNum.nan, _ => false
  | _, JSNum.nan => false
  | JSNum.posInf, _ => true
  | _, JSNum.posInf => false
  | _, JSNum.negInf => true
  | JSNum.negInf, _ => false
  | JSNum.num a, JSNum.num b => decide (b ≤ a)

/-- One step of JS `Math.max` (`NaN` is contagious). -/
def JSNum.maxOp : JSNum → JSNum → JSNum
  | JSNum.nan, _ => JSNum.nan
  | _, JSNum.nan => JSNum.nan
  | JSNum.num a, JSNum.num b => JSNum.num (max a b)
  | JSNum.posInf, _ => JSNum.posInf
  | _, JSNum.posInf => JSNum.posInf
  | JSNum.negInf, x => x
  | x, JSNum.negInf => x

/-- One step of JS `Math.min`. -/
def JSNum.minOp : JSNum → JSNum → JSNum
  | JSNum.nan, _ => JSNum.nan
  | _, JSNum.nan => JSNum.nan
  | JSNum.num a, JSNum.num b => JSNum.num (min a b)
  | JSNum.negInf, _ => JSNum.negInf
  | _, JSNum.negInf => JSNum.negInf
  | JSNum.posInf, x => x
  | x, JSNum.posInf => x

/-- JS `Math.max(...l)`: `-Infinity` on the empty spread. -/
def jsMax (l : List JSNum) : JSNum := l.foldr JSNum.maxOp JSNum.negInf

/-- JS `Math.min(...l)`: `Infinity` on the empty spread. -/
def jsMin (l : List JSNum) : JSNum := l.foldr JSNum.minOp JSNum.posInf

/-- Decimal digits of a natural number, most significant first.  Structural
(fuel-based) so that it reduces in the kernel; `fuel = n + 1` always
suffices since `n / 10 < n` for `n ≥ 10`. -/
def natDigitsAux : ℕ → ℕ → List Char
  | 0, _ => []
  | fuel + 1, n =>
    if n < 10 then [Char.ofNat (48 + n)]
    else natDigitsAux fuel (n / 10) ++ [Char.ofNat (48 + n % 10)]

/-- Decimal digit string of a natural number. -/
def natDigits (n : ℕ) : List Char := natDigitsAux (n + 1) n

/-- JS number-to-string for a natural number (template-literal `${n}`). -/
def jsNatStr (n : ℕ) : String := String.mk (natDigits n)

/-- JS number-to-string for an integer (template-literal `${i}`). -/
def intToString (i : ℤ) : String :=
  if i < 0 then "-" ++ String.mk (natDigits i.natAbs) else String.mk (natDigits i.natAbs)

/-- JS number-to-string, for the values this program interpolates: outputs of
`Math.round`, so the finite case is always integral and prints as an
integer (`⌊q⌋ = q` there). -/
def JSNum.toStr : JSNum → String
  | JSNum.num q => intToString (Rat.floor q)
  | JSNum.posInf => "Infinity"
  | JSNum.negInf => "-Infinity"
  | JSNum.nan => "NaN"

/-- JS `s.slice(-n)`: the last `n` characters (all of `s` when shorter). -/
def jsSliceLast (n : ℕ) (s : String) : String :=
  String.mk (s.data.drop (s.data.length - n))

/-- JS `s.slice(0, n)`: the first `n` characters. -/
def jsSliceFirst (n : ℕ) (s : String) : String := String.mk (s.data.take n)

/-- JS `s.repeat(n)`. -/
def strRepeat (s : String) : ℕ → String
  | 0 => ""
  | n + 1 => s ++ strRepeat s n

/-- JS `Array.prototype.join(sep)`. -/
def jsJoin (sep : String) : List String → String
  | [] => ""
  | [s] => s
  | s :: rest => s ++ sep ++ jsJoin sep rest

/-- The output format selector (source: `const enum Format`). -/
inductive Format where
  | html
  | tty
deriving DecidableEq

/-- Source `bold(s, format)`: `<strong>` wrapping for html, SGR bright for tty. -/
def bold (s : String) (format : Format) : String :=
  if format = Format.html then "<strong>" ++ s ++ "</strong>"
  else "\x1b[1m" ++ s ++ "\x1b[0m"

/-- Source `cyan(s, format)`: a styled `<span>` for html, SGR cyan for tty. -/
def cyan (s : String) (format : Format) : String :=
  if format = Format.html then "<span style=\"color: teal\">" ++ s ++ "</span>"
  else "\x1b[36m" ++ s ++ "\x1b[0m"

/-- Source `PREFIX = ' '.repeat(9)`: the blank label column of every graph
row.  (Named `PAD` here; the source calls it PREFIX.) -/
def PAD : String := strRepeat " " 9

/-- One hour-slot of the canonical forecast. -/
structure HourlyForecast where
  temperature : ℚ
  feels_like : ℚ
  precipitation_probability : ℚ
deriving DecidableEq

/-- The canonical forecast data model. -/
structure Forecast where
  alerts : List String
  temperature : ℚ
  feels_like : ℚ
  current_summary : String
  future_summary : String
  hourly : List HourlyForecast
deriving DecidableEq

/-- The `feels_like` series of a forecast (`forecast.hourly.map(h => h.feels_like)`). -/
def tempsQ (f : Forecast) : List ℚ := f.hourly.map HourlyForecast.feels_like

/-- The `precipitation_probability` series of a forecast. -/
def probsQ (f : Forecast) : List ℚ :=
  f.hourly.map HourlyForecast.precipitation_probability

/-- Source `renderPrecipitationGraph`, local `scalePrecipitation(p)`:
`Math.round(p * graphHeight)` with `graphHeight = 5`. -/
def scalePrecipitation (p : JSNum) : JSNum := JSNum.round (JSNum.mul p (JSNum.num 5))

/-- Source `maxPrecipProbability = Math.max(...precipProbabilities)`. -/
def maxPrecipProbability (f : Forecast) : JSNum :=
  jsMax ((probsQ f).map JSNum.num)

/-- Source `scaledPrecips = precipProbabilities.map(scalePrecipitation)`. -/
def scaledPrecips (f : Forecast) : List JSNum :=
  ((probsQ f).map JSNum.num).map scalePrecipitation

/-- Whether column `c` of precipitation row `i` is filled:
`scaledPrecips[c] >= i` in the source's row loop. -/
def precipRowCells (f : Forecast) (i : ℕ) : List Bool :=
  (scaledPrecips f).map (fun p => JSNum.ge p (JSNum.num (i : ℚ)))

/-- The label slot of precipitation row `i`: the cyan bold
`'    R <pct>%  '.slice(-9)` marker on the row hit by the maximum
probability, the blank 9-character slot everywhere else. -/
def precipRowLabel (f : Forecast) (format : Format) (i : ℕ) : String :=
  if scalePrecipitation (maxPrecipProbability f) = JSNum.num (i : ℚ) then
    cyan (bold (jsSliceLast 9 ("    R " ++
      JSNum.toStr (JSNum.round (JSNum.mul (maxPrecipProbability f) (JSNum.num 100))) ++
      "%  ")) format) format
  else PAD

/-- One row of the precipitation graph (label slot, then cyan markers). -/
def precipRow (f : Forecast) (format : Format) (i : ℕ) : String :=
  precipRowLabel f format i ++
    cyan (jsJoin "" ((precipRowCells f i).map (fun b => if b then "**" else "  "))) format

/-- The five precipitation rows (`i = 1` to `5`, top to bottom). -/
def precipRows (f : Forecast) (format : Format) : List String :=
  (List.range' 1 5).map (precipRow f format)

/-- Source `renderPrecipitationGraph(forecast, format)`: empty when the
maximum precipitation probability is exactly `0`, otherwise the five rows
joined with newlines. -/
def renderPrecipitationGraph (f : Forecast) (format : Format) : String :=
  if maxPrecipProbability f = JSNum.num 0 then ""
  else jsJoin "\n" (precipRows f format)

/-- Source `maxTemperature = Math.max(...temps)`. -/
def maxTemperature (f : Forecast) : JSNum := jsMax ((tempsQ f).map JSNum.num)

/-- Source `minTemperature = Math.min(...temps)`. -/
def minTemperature (f : Forecast) : JSNum := jsMin ((tempsQ f).map JSNum.num)

/-- Source `scaleTemperature(temp)` of `renderTemperatureGraph`:
`Math.round((temp - minTemperature) / (maxTemperature - minTemperature) * graphHeight)`
with `graphHeight = 7`.  The closed-over `minTemperature`/`maxTemperature`
are explicit parameters here. -/
def scaleTemperature (minT maxT t : JSNum) : JSNum :=
  JSNum.round (JSNum.mul (JSNum.div (JSNum.sub t minT) (JSNum.sub maxT minT)) (JSNum.num 7))

/-- Source `scaledTemps = temps.map(scaleTemperature)`. -/
def scaledTemps (f : Forecast) : List JSNum :=
  ((tempsQ f).map JSNum.num).map (scaleTemperature (minTemperature f) (maxTemperature f))

/-- Whether column `c` of temperature row `i` is filled: `scaledTemps[c] >= i`. -/
def tempRowCells (f : Forecast) (i : ℕ) : List Bool :=
  (scaledTemps f).map (fun t => JSNum.ge t (JSNum.num (i : ℚ)))

/-- The label slot of temperature row `i`: the bold high-temperature label
`'    H <maxT>F  '.slice(-9)` on the top row, blank otherwise. -/
def tempRowLabel (f : Forecast) (format : Format) (i : ℕ) : String :=
  if i = 7 then
    bold (jsSliceLast 9 ("    H " ++ JSNum.toStr (JSNum.round (maxTemperature f)) ++ "F  "))
      format
  else PAD

/-- One row of the temperature graph. -/
def tempRow (f : Forecast) (format : Format) (i : ℕ) : String :=
  tempRowLabel f format i ++
    jsJoin "" ((tempRowCells f i).map (fun b => if b then "**" else "  "))

/-- The baseline row: bold low-temperature label and a fully filled row. -/
def baselineRow (f : Forecast) (format : Format) : String :=
  bold (jsSliceLast 9 ("    L " ++ JSNum.toStr (JSNum.round (minTemperature f)) ++ "F  "))
    format ++ strRepeat "**" (scaledTemps f).length

/-- The eight temperature-graph rows: `i = 7` down to `1`, then the baseline. -/
def tempRows (f : Forecast) (format : Format) : List String :=
  ((List.range' 1 7).reverse.map (tempRow f format)) ++ [baselineRow f format]

/-- Source `renderTemperatureGraph(forecast, format)`. -/
def renderTemperatureGraph (f : Forecast) (format : Format) : String :=
  jsJoin "\n" (tempRows f format)

/-- The column loop of `renderTimeOffsets`, from index `i` over `n` columns.
Fuel-based structural recursion (`fuel ≥ n - i` suffices: each iteration
advances `i` by 1 or 2 and consumes one unit of fuel). -/
def timeOffsetsAux (format : Format) (n : ℕ) : ℕ → ℕ → String
  | 0, _ => ""
  | fuel + 1, i =>
    if i < n then
      if i = n - 1 then bold (jsNatStr (n - 1) ++ "h") format
      else if i % 6 = 0 then
        bold (jsSliceFirst 4 (jsNatStr i ++ "h   ")) format ++
          timeOffsetsAux format n fuel (i + 2)
      else "  " ++ timeOffsetsAux format n fuel (i + 1)
    else ""

/-- Source `renderTimeOffsets(forecast, format)`: blank label column, then
the hour ruler. -/
def renderTimeOffsets (f : Forecast) (format : Format) : String :=
  PAD ++ timeOffsetsAux format f.hourly.length f.hourly.length 0

/-- The array literal inside `render`, before `.filter(v => v)`:
`none` models the `undefined` entries. -/
def renderItems (f : Forecast) (format : Format) : List (Option String) :=
  [ some (if format = Format.html then "<html><pre>" else "\n"),
    if f.alerts.length = 0 then none
    else some (bold ("Alerts:  " ++ jsJoin ", " f.alerts) format),
    some (bold ("Now:     " ++ intToString (jsRound f.feels_like) ++ "F, " ++
      f.current_summary) format),
    some (bold ("Later:   " ++ f.future_summary ++ "\n") format),
    some (renderTimeOffsets f format),
    some (renderTemperatureGraph f format),
    some (renderPrecipitationGraph f format),
    if format = Format.html then some "</pre></html>" else none ]

/-- Source `render(forecast, format)`: the truthy entries (`undefined` and
the empty string are dropped) joined with newlines, plus two trailing
newlines. -/
def render (f : Forecast) (format : Format) : String :=
  jsJoin "\n" (((renderItems f format).filterMap id).filter fun s => decide (s ≠ "")) ++
    "\n\n"

/-- One alert of a Dark Sky payload (only the title is consumed). -/
structure DarkSkyAlert where
  title : String

/-- The current-conditions block of a Dark Sky payload. -/
structure DarkSkyCurrently where
  temperature : ℚ
  apparentTemperature : ℚ
  summary : String

/-- One hour of the upstream hourly series. -/
structure DarkSkyHour where
  temperature : ℚ
  apparentTemperature : ℚ
  precipProbability : ℚ

/-- The hourly block of a Dark Sky payload; its `data` series may be absent. -/
structure DarkSkyHourly where
  summary : String
  data : Option (List DarkSkyHour)

/-- An upstream payload, with the nested blocks the normalizer dereferences
modelled as optional (absent = `undefined` in JS). -/
structure DarkSkyPayload where
  alerts : Option (List DarkSkyAlert)
  currently : Option DarkSkyCurrently
  hourly : Option DarkSkyHourly

/-- Source `transformDarkSkyForecast(data)`.  Dereferencing a missing
`currently`, `hourly` or `hourly.data` block throws in JS (the
normalization error surfaced to the caller); this is the `Except.error`
branch.  `data.alerts` is only accessed behind a truthiness guard and so
never throws. -/
def transformDarkSkyForecast (d : DarkSkyPayload) : Except String Forecast :=
  match d.currently, d.hourly with
  | some cur, some hb =>
    match hb.data with
    | some dat =>
      Except.ok
        { alerts := match d.alerts with
            | some l => l.map DarkSkyAlert.title
            | none => []
          temperature := cur.temperature
          feels_like := cur.apparentTemperature
          current_summary := cur.summary
          future_summary := hb.summary
          hourly := (dat.take 25).map fun h =>
            { temperature := h.temperature
              feels_like := h.apparentTemperature
              precipitation_probability := h.precipProbability } }
    | none => Except.error "TypeError: cannot read properties of undefined"
  | _, _ => Except.error "TypeError: cannot read properties of undefined"

/-! ### Bridges between the computable rational helpers and `ℚ` arithmetic -/

theorem ratFloor_eq (q : ℚ) : Rat.floor q = ⌊q⌋ :=
  (Rat.floor_def' q).trans Rat.floor_def.symm

theorem num_eq_mul_den (a : ℚ) : (a.num : ℚ) = a * a.den := by
  have hd : (a.den : ℚ) ≠ 0 := by exact_mod_cast a.den_nz
  exact ((div_eq_iff hd).mp (Rat.num_div_den a)).symm ▸ rfl

theorem qadd_eq (a b : ℚ) : qadd a b = a + b := by
  have hd : ((a.den : ℚ) * (b.den : ℚ)) ≠ 0 := by
    have h1 : (a.den : ℚ) ≠ 0 := by exact_mod_cast a.den_nz
    have h2 : (b.den : ℚ) ≠ 0 := by exact_mod_cast b.den_nz
    exact mul_ne_zero h1 h2
  rw [qadd, Rat.divInt_eq_div]
  push_cast
  rw [div_eq_iff hd, num_eq_mul_den a, num_eq_mul_den b]
  ring

theorem qsub_eq (a b : ℚ) : qsub a b = a - b := by
  have hd : ((a.den : ℚ) * (b.den : ℚ)) ≠ 0 := by
    have h1 : (a.den : ℚ) ≠ 0 := by exact_mod_cast a.den_nz
    have h2 : (b.den : ℚ) ≠ 0 := by exact_mod_cast b.den_nz
    exact mul_ne_zero h1 h2
  rw [qsub, Rat.divInt_eq_div]
  push_cast
  rw [div_eq_iff hd, num_eq_mul_den a, num_eq_mul_den b]
  ring

theorem qmul_eq (a b : ℚ) : qmul a b = a * b := by
  have hd : ((a.den : ℚ) * (b.den : ℚ)) ≠ 0 := by
    have h1 : (a.den : ℚ) ≠ 0 := by exact_mod_cast a.den_nz
    have h2 : (b.den : ℚ) ≠ 0 := by exact_mod_cast b.den_nz
    exact mul_ne_zero h1 h2
  rw [qmul, Rat.divInt_eq_div]
  push_cast
  rw [div_eq_iff hd, num_eq_mul_den a, num_eq_mul_den b]
  ring

theorem qdiv_eq (a b : ℚ) : qdiv a b = a / b := by
  rcases eq_or_ne b 0 with hb | hb
  · subst hb
    simp [qdiv, Rat.divInt_eq_div]
  · have h1 : (a.den : ℚ) ≠ 0 := by exact_mod_cast a.den_nz
    have h2 : (b.den : ℚ) ≠ 0 := by exact_mod_cast b.den_nz
    have hbn : (b.num : ℚ) ≠ 0 := by exact_mod_cast Rat.num_ne_zero.mpr hb
    have hd : ((a.den : ℚ) * (b.num : ℚ)) ≠ 0 := mul_ne_zero h1 hbn
    rw [qdiv, Rat.divInt_eq_div]
    push_cast
    rw [div_eq_iff hd]
    field_simp
    rw [num_eq_mul_den a, num_eq_mul_den b]
    ring

theorem jsRound_eq (q : ℚ) : jsRound q = ⌊q + 1 / 2⌋ := by
  have hd : ((q.den : ℚ) * 2) ≠ 0 := by
    have h1 : (q.den : ℚ) ≠ 0 := by exact_mod_cast q.den_nz
    exact mul_ne_zero h1 two_ne_zero
  have harg : Rat.divInt (q.num * 2 + q.den) (q.den * 2) = q + 1 / 2 := by
    rw [Rat.divInt_eq_div]
    push_cast
    rw [div_eq_iff hd, num_eq_mul_den q]
    ring
  rw [jsRound, harg, ratFloor_eq]

/-! ### Basic string facts -/

theorem strData_append (a b : String) : (a ++ b).data = a.data ++ b.data := by
  cases a; cases b; rfl

theorem strExt {a b : String} (h : a.data = b.data) : a = b := by
  cases a; cases b; exact congrArg String.mk h

theorem strLength_data (s : String) : s.length = s.data.length := rfl

/-- Number of newline characters in a string. -/
def nlCount (s : String) : ℕ := s.data.count '\n'

/-- Number of lines of a (section) string: newline count plus one. -/
def lineCount (s : String) : ℕ := nlCount s + 1

theorem nlCount_append (a b : String) : nlCount (a ++ b) = nlCount a + nlCount b := by
  unfold nlCount
  rw [strData_append, List.count_append]

/-- A string free of the escape-opening characters of both formats and of
newlines: every label and marker fragment the renderers emit. -/
def plainStr (s : String) : Prop := ∀ c ∈ s.data, c ≠ '\x1b' ∧ c ≠ '<' ∧ c ≠ '\n'

theorem plainStr_append {a b : String} (ha : plainStr a) (hb : plainStr b) :
    plainStr (a ++ b) := by
  intro c hc
  rw [strData_append, List.mem_append] at hc
  rcases hc with h | h
  · exact ha c h
  · exact hb c h

theorem plainStr_nlCount {s : String} (h : plainStr s) : nlCount s = 0 := by
  unfold nlCount
  rw [List.count_eq_zero]
  intro hc
  exact (h _ hc).2.2 rfl

theorem natDigitsAux_plain (fuel n : ℕ) :
    ∀ c ∈ natDigitsAux fuel n, c ≠ '\x1b' ∧ c ≠ '<' ∧ c ≠ '\n' := by
  induction fuel generalizing n with
  | zero => intro c hc; simp [natDigitsAux] at hc
  | succ fuel ih =>
    intro c hc
    rw [natDigitsAux] at hc
    by_cases h10 : n < 10
    · rw [if_pos h10] at hc
      simp only [List.mem_singleton] at hc
      subst hc
      interval_cases n <;> exact ⟨by decide, by decide, by decide⟩
    · rw [if_neg h10] at hc
      rcases List.mem_append.mp hc with h | h
      · exact ih _ c h
      · simp only [List.mem_singleton] at h
        subst h
        have hm : n % 10 < 10 := Nat.mod_lt n (by omega)
        set m := n % 10 with hmdef
        clear_value m
        interval_cases m <;> exact ⟨by decide, by decide, by decide⟩

theorem jsNatStr_plain (n : ℕ) : plainStr (jsNatStr n) := by
  intro c hc
  exact natDigitsAux_plain _ _ c hc

theorem intToString_plain (i : ℤ) : plainStr (intToString i) := by
  unfold intToString
  by_cases h : i < 0
  · rw [if_pos h]
    refine plainStr_append ?_ ?_
    · intro c hc
      simp only [show ("-" : String).data = ['-'] from rfl, List.mem_singleton] at hc
      subst hc
      exact ⟨by decide, by decide, by decide⟩
    · intro c hc
      exact natDigitsAux_plain _ _ c hc
  · rw [if_neg h]
    intro c hc
    exact natDigitsAux_plain _ _ c hc

theorem toStr_plain (x : JSNum) : plainStr (JSNum.toStr x) := by
  cases x with
  | num q => exact intToString_plain _
  | posInf => intro c hc; fin_cases hc <;> exact ⟨by decide, by decide, by decide⟩
  | negInf => intro c hc; fin_cases hc <;> exact ⟨by decide, by decide, by decide⟩
  | nan => intro c hc; fin_cases hc <;> exact ⟨by decide, by decide, by decide⟩

theorem jsSliceLast_plain {s : String} (h : plainStr s) (n : ℕ) :
    plainStr (jsSliceLast n s) := by
  intro c hc
  exact h c (List.mem_of_mem_drop hc)

theorem jsSliceFirst_plain {s : String} (h : plainStr s) (n : ℕ) :
    plainStr (jsSliceFirst n s) := by
  intro c hc
  exact h c (List.mem_of_mem_take hc)

theorem strRepeat_plain {s : String} (h : plainStr s) (n : ℕ) :
    plainStr (strRepeat s n) := by
  induction n with
  | zero => intro c hc; simp [strRepeat] at hc
  | succ n ih => exact plainStr_append h ih

theorem plainStr_literal_check (s : String)
    (h : s.data.all (fun c => c ≠ '\x1b' ∧ c ≠ '<' ∧ c ≠ '\n') = true) : plainStr s := by
  intro c hc
  have := List.all_eq_true.mp h c hc
  exact of_decide_eq_true this

/-! ### Stripping format decoration

A two-state scanner: outside markup it copies characters, after seeing the
opening character (`ESC` for tty, `<` for html) it discards everything up to
and including the closing character (`m` / `>`). -/

/-- The scanner; `true` means inside a markup run. -/
def stripAux (op cl : Char → Bool) : Bool → List Char → List Char
  | _, [] => []
  | true, c :: r => stripAux op cl (!(cl c)) r
  | false, c :: r =>
    if op c then stripAux op cl true r else c :: stripAux op cl false r

/-- The scanner state after consuming a character list. -/
def stateAfter (op cl : Char → Bool) : Bool → List Char → Bool
  | st, [] => st
  | true, c :: r => stateAfter op cl (!(cl c)) r
  | false, c :: r => stateAfter op cl (if op c then true else false) r

/-- The markup-opening character test of a format. -/
def opFor : Format → Char → Bool
  | Format.tty => fun c => c = '\x1b'
  | Format.html => fun c => c = '<'

/-- The markup-closing character test of a format. -/
def clFor : Format → Char → Bool
  | Format.tty => fun c => c = 'm'
  | Format.html => fun c => c = '>'

/-- Remove all of a format's decoration from a string. -/
def stripDecoration (format : Format) (s : String) : String :=
  String.mk (stripAux (opFor format) (clFor format) false s.data)

/-- A string whose markup (if any) is fully closed: the scanner ends outside
a markup run. -/
def closedFor (format : Format) (s : String) : Prop :=
  stateAfter (opFor format) (clFor format) false s.data = false

theorem stripAux_append (op cl : Char → Bool) :
    ∀ (l1 l2 : List Char) (st : Bool),
      stripAux op cl st (l1 ++ l2) =
        stripAux op cl st l1 ++ stripAux op cl (stateAfter op cl st l1) l2 := by
  intro l1
  induction l1 with
  | nil => intro l2 st; cases st <;> rfl
  | cons c r ih =>
    intro l2 st
    cases st with
    | true => exact ih l2 (!(cl c))
    | false =>
      by_cases hc : op c = true
      · simp only [List.cons_append, stripAux, stateAfter, hc, if_true]
        exact ih l2 true
      · simp only [Bool.not_eq_true] at hc
        simp only [List.cons_append, stripAux, stateAfter, hc]
        simp only [Bool.false_eq_true, if_false, List.cons_append]
        exact congrArg (c :: ·) (ih l2 false)

theorem stateAfter_append (op cl : Char → Bool) :
    ∀ (l1 l2 : List Char) (st : Bool),
      stateAfter op cl st (l1 ++ l2) =
        stateAfter op cl (stateAfter op cl st l1) l2 := by
  intro l1
  induction l1 with
  | nil => intro l2 st; cases st <;> rfl
  | cons c r ih =>
    intro l2 st
    cases st with
    | true => exact ih l2 (!(cl c))
    | false =>
      by_cases hc : op c = true
      · simp only [List.cons_append, stateAfter, hc, if_true]
        exact ih l2 true
      · simp only [Bool.not_eq_true] at hc
        simp only [List.cons_append, stateAfter, hc]
        simp only [Bool.false_eq_true, if_false]
        exact ih l2 false

theorem stripAux_plain (op cl : Char → Bool) :
    ∀ (l : List Char), (∀ c ∈ l, op c = false) →
      stripAux op cl false l = l ∧ stateAfter op cl false l = false := by
  intro l
  induction l with
  | nil => intro _; exact ⟨rfl, rfl⟩
  | cons c r ih =>
    intro h
    have hc : op c = false := h c (List.mem_cons_self c r)
    have hr := ih fun x hx => h x (List.mem_cons_of_mem c hx)
    constructor
    · simp only [stripAux, hc]
      simp only [Bool.false_eq_true, if_false, hr.1]
    · simp only [stateAfter, hc]
      simp only [Bool.false_eq_true, if_false, hr.2]

theorem plainStr_opFor {format : Format} {s : String} (h : plainStr s) :
    ∀ c ∈ s.data, opFor format c = false := by
  intro c hc
  cases format with
  | tty => simp only [opFor, decide_eq_false_iff_not]; exact (h c hc).1
  | html => simp only [opFor, decide_eq_false_iff_not]; exact (h c hc).2.1

/-- Stripping leaves a markup-free string unchanged (and it is closed). -/
theorem strip_plain (format : Format) {s : String} (h : plainStr s) :
    stripDecoration format s = s ∧ closedFor format s := by
  have := stripAux_plain (opFor format) (clFor format) s.data (plainStr_opFor h)
  exact ⟨strExt this.1, this.2⟩

theorem strip_append {format : Format} (a b : String) (ha : closedFor format a) :
    stripDecoration format (a ++ b) =
      stripDecoration format a ++ stripDecoration format b := by
  apply strExt
  show stripAux _ _ false (a ++ b).data = (stripDecoration format a ++ stripDecoration format b).data
  rw [strData_append, stripAux_append, ha, strData_append]
  rfl

theorem closed_append {format : Format} (a b : String)
    (ha : closedFor format a) (hb : closedFor format b) : closedFor format (a ++ b) := by
  show stateAfter _ _ false (a ++ b).data = false
  rw [strData_append, stateAfter_append, ha, hb]

/-- Wrapping a closed string between two pieces that strip to nothing strips
back to the string itself. -/
theorem strip_wrap {format : Format} (a s b : String)
    (hA1 : stateAfter (opFor format) (clFor format) false a.data = false)
    (hA2 : stripAux (opFor format) (clFor format) false a.data = [])
    (hB1 : stateAfter (opFor format) (clFor format) false b.data = false)
    (hB2 : stripAux (opFor format) (clFor format) false b.data = [])
    (hs : closedFor format s) :
    stripDecoration format (a ++ s ++ b) = stripDecoration format s ∧
      closedFor format (a ++ s ++ b) := by
  constructor
  · apply strExt
    show stripAux _ _ false (a ++ s ++ b).data = (stripDecoration format s).data
    rw [strData_append, strData_append, stripAux_append, stripAux_append,
      stateAfter_append, hA1, hA2, hs, hB2]
    simp [stripDecoration]
  · show stateAfter _ _ false (a ++ s ++ b).data = false
    rw [strData_append, strData_append, stateAfter_append, stateAfter_append,
      hA1, hs, hB1]

theorem bold_eq_wrap (s : String) (format : Format) :
    bold s format =
      (if format = Format.html then "<strong>" else "\x1b[1m") ++ s ++
        (if format = Format.html then "</strong>" else "\x1b[0m") := by
  cases format <;> rfl

theorem cyan_eq_wrap (s : String) (format : Format) :
    cyan s format =
      (if format = Format.html then "<span style=\"color: teal\">" else "\x1b[36m") ++ s ++
        (if format = Format.html then "</span>" else "\x1b[0m") := by
  cases format <;> rfl

theorem strip_bold {format : Format} (s : String) (hs : closedFor format s) :
    stripDecoration format (bold s format) = stripDecoration format s ∧
      closedFor format (bold s format) := by
  rw [bold_eq_wrap]
  cases format with
  | html => exact strip_wrap _ s _ (by decide) (by decide) (by decide) (by decide) hs
  | tty => exact strip_wrap _ s _ (by decide) (by decide) (by decide) (by decide) hs

theorem strip_cyan {format : Format} (s : String) (hs : closedFor format s) :
    stripDecoration format (cyan s format) = stripDecoration format s ∧
      closedFor format (cyan s format) := by
  rw [cyan_eq_wrap]
  cases format with
  | html => exact strip_wrap _ s _ (by decide) (by decide) (by decide) (by decide) hs
  | tty => exact strip_wrap _ s _ (by decide) (by decide) (by decide) (by decide) hs

/-! ### Length and newline bookkeeping -/

theorem strLen_append (a b : String) : (a ++ b).length = a.length + b.length := by
  rw [strLength_data, strLength_data, strLength_data, strData_append, List.length_append]

theorem jsSliceLast_length {s : String} (h : 9 ≤ s.length) :
    (jsSliceLast 9 s).length = 9 := by
  show (s.data.drop (s.data.length - 9)).length = 9
  rw [List.length_drop]
  rw [strLength_data] at h
  omega

theorem strRepeat_length (s : String) (n : ℕ) :
    (strRepeat s n).length = n * s.length := by
  induction n with
  | zero => simp [strRepeat]
  | succ n ih =>
    show (s ++ strRepeat s n).length = (n + 1) * s.length
    rw [strLen_append, ih]
    ring

theorem jsJoinEmpty_length (k : ℕ) :
    ∀ (l : List String), (∀ s ∈ l, s.length = k) → (jsJoin "" l).length = k * l.length
  | [], _ => rfl
  | [s], h => by
    have := h s (List.mem_singleton.mpr rfl)
    simp [jsJoin, this]
  | s :: t :: rest, h => by
    have hs : s.length = k := h s (List.mem_cons_self _ _)
    have ht := jsJoinEmpty_length k (t :: rest) fun x hx => h x (List.mem_cons_of_mem s hx)
    show (s ++ "" ++ jsJoin "" (t :: rest)).length = k * (s :: t :: rest).length
    rw [strLen_append, strLen_append, hs, ht]
    simp [List.length_cons, show ("" : String).length = 0 from rfl]
    ring

theorem jsJoin_plain {sep : String} (hsep : plainStr sep) :
    ∀ (l : List String), (∀ s ∈ l, plainStr s) → plainStr (jsJoin sep l)
  | [], _ => by intro c hc; simp [jsJoin, show ("" : String).data = [] from rfl] at hc
  | [s], h => h s (List.mem_singleton.mpr rfl)
  | s :: t :: rest, h => by
    have hs := h s (List.mem_cons_self _ _)
    have ht := jsJoin_plain hsep (t :: rest) fun x hx => h x (List.mem_cons_of_mem s hx)
    exact plainStr_append (plainStr_append hs hsep) ht

theorem nlCount_jsJoin :
    ∀ (l : List String), l ≠ [] → (∀ s ∈ l, nlCount s = 0) →
      nlCount (jsJoin "\n" l) = l.length - 1
  | [], h, _ => absurd rfl h
  | [s], _, h => by
    simpa [jsJoin] using h s (List.mem_singleton.mpr rfl)
  | s :: t :: rest, _, h => by
    have hs : nlCount s = 0 := h s (List.mem_cons_self _ _)
    have ht := nlCount_jsJoin (t :: rest) (by simp) fun x hx =>
      h x (List.mem_cons_of_mem s hx)
    show nlCount (s ++ "\n" ++ jsJoin "\n" (t :: rest)) = (t :: rest).length + 1 - 1
    rw [nlCount_append, nlCount_append, hs, ht]
    have h1 : nlCount "\n" = 1 := by decide
    rw [h1]
    simp only [List.length_cons]
    omega

theorem nlCount_bold (s : String) (format : Format) :
    nlCount (bold s format) = nlCount s := by
  cases format with
  | html =>
    show nlCount ("<strong>" ++ s ++ "</strong>") = nlCount s
    rw [nlCount_append, nlCount_append,
      show nlCount "<strong>" = 0 from by decide, show nlCount "</strong>" = 0 from by decide]
    omega
  | tty =>
    show nlCount ("\x1b[1m" ++ s ++ "\x1b[0m") = nlCount s
    rw [nlCount_append, nlCount_append,
      show nlCount "\x1b[1m" = 0 from by decide, show nlCount "\x1b[0m" = 0 from by decide]
    omega

theorem nlCount_cyan (s : String) (format : Format) :
    nlCount (cyan s format) = nlCount s := by
  cases format with
  | html =>
    show nlCount ("<span style=\"color: teal\">" ++ s ++ "</span>") = nlCount s
    rw [nlCount_append, nlCount_append,
      show nlCount "<span style=\"color: teal\">" = 0 from by decide,
      show nlCount "</span>" = 0 from by decide]
    omega
  | tty =>
    show nlCount ("\x1b[36m" ++ s ++ "\x1b[0m") = nlCount s
    rw [nlCount_append, nlCount_append,
      show nlCount "\x1b[36m" = 0 from by decide, show nlCount "\x1b[0m" = 0 from by decide]
    omega

theorem PAD_plain : plainStr PAD := by
  intro c hc
  have : PAD.data = [' ', ' ', ' ', ' ', ' ', ' ', ' ', ' ', ' '] := by decide
  rw [this] at hc
  fin_cases hc <;> exact ⟨by decide, by decide, by decide⟩

theorem PAD_length : PAD.length = 9 := by decide

/-! ### Maxima and minima of the rational series -/

/-- Mathematical maximum of a rational list (`0` for the empty list, which
is never used on that case). -/
def qListMax : List ℚ → ℚ
  | [] => 0
  | a :: r => r.foldr max a

/-- Mathematical minimum of a rational list. -/
def qListMin : List ℚ → ℚ
  | [] => 0
  | a :: r => r.foldr min a

theorem foldr_max_comm (a b : ℚ) (r : List ℚ) :
    max a (r.foldr max b) = max b (r.foldr max a) := by
  induction r generalizing a b with
  | nil => exact max_comm a b
  | cons c r ih =>
    show max a (max c (r.foldr max b)) = max b (max c (r.foldr max a))
    rw [max_left_comm, ih, max_left_comm]

theorem foldr_min_comm (a b : ℚ) (r : List ℚ) :
    min a (r.foldr min b) = min b (r.foldr min a) := by
  induction r generalizing a b with
  | nil => exact min_comm a b
  | cons c r ih =>
    show min a (min c (r.foldr min b)) = min b (min c (r.foldr min a))
    rw [min_left_comm, ih, min_left_comm]

theorem jsMax_num (a : ℚ) (r : List ℚ) :
    jsMax ((a :: r).map JSNum.num) = JSNum.num (qListMax (a :: r)) := by
  induction r generalizing a with
  | nil => rfl
  | cons b r ih =>
    show JSNum.maxOp (JSNum.num a) (jsMax ((b :: r).map JSNum.num)) = _
    rw [ih b]
    show JSNum.num (max a (qListMax (b :: r))) = JSNum.num (qListMax (a :: b :: r))
    show JSNum.num (max a (r.foldr max b)) = JSNum.num (r.foldr max a |> max b)
    rw [foldr_max_comm]

theorem jsMin_num (a : ℚ) (r : List ℚ) :
    jsMin ((a :: r).map JSNum.num) = JSNum.num (qListMin (a :: r)) := by
  induction r generalizing a with
  | nil => rfl
  | cons b r ih =>
    show JSNum.minOp (JSNum.num a) (jsMin ((b :: r).map JSNum.num)) = _
    rw [ih b]
    show JSNum.num (min a (qListMin (b :: r))) = JSNum.num (qListMin (a :: b :: r))
    show JSNum.num (min a (r.foldr min b)) = JSNum.num (r.foldr min a |> min b)
    rw [foldr_min_comm]

theorem le_foldr_max (a : ℚ) (r : List ℚ) : a ≤ r.foldr max a := by
  induction r with
  | nil => exact le_refl a
  | cons c r ih => exact le_trans ih (le_max_right c _)

theorem mem_le_foldr_max (a x : ℚ) (r : List ℚ) (hx : x ∈ r) : x ≤ r.foldr max a := by
  induction r with
  | nil => cases hx
  | cons c r ih =>
    rcases List.mem_cons.mp hx with h | h
    · subst h; exact le_max_left x _
    · exact le_trans (ih h) (le_max_right c _)

theorem le_qListMax (x : ℚ) (a : ℚ) (r : List ℚ) (hx : x ∈ a :: r) :
    x ≤ qListMax (a :: r) := by
  rcases List.mem_cons.mp hx with h | h
  · subst h; exact le_foldr_max x r
  · exact mem_le_foldr_max a x r h

theorem foldr_min_le (a : ℚ) (r : List ℚ) : r.foldr min a ≤ a := by
  induction r with
  | nil => exact le_refl a
  | cons c r ih => exact le_trans (min_le_right c _) ih

theorem foldr_min_le_mem (a x : ℚ) (r : List ℚ) (hx : x ∈ r) : r.foldr min a ≤ x := by
  induction r with
  | nil => cases hx
  | cons c r ih =>
    rcases List.mem_cons.mp hx with h | h
    · subst h; exact min_le_left x _
    · exact le_trans (min_le_right c _) (ih h)

theorem qListMin_le (x : ℚ) (a : ℚ) (r : List ℚ) (hx : x ∈ a :: r) :
    qListMin (a :: r) ≤ x := by
  rcases List.mem_cons.mp hx with h | h
  · subst h; exact foldr_min_le x r
  · exact foldr_min_le_mem a x r h

theorem qListMax_mem (a : ℚ) (r : List ℚ) : qListMax (a :: r) ∈ a :: r := by
  induction r generalizing a with
  | nil => exact List.mem_singleton.mpr rfl
  | cons b r ih =>
    show max b (r.foldr max a) ∈ a :: b :: r
    rcases max_choice b (r.foldr max a) with h | h
    · rw [h]; exact List.mem_cons_of_mem a (List.mem_cons_self b r)
    · rw [h]
      have := ih a
      rcases List.mem_cons.mp this with h2 | h2
      · rw [show qListMax (a :: r) = r.foldr max a from rfl] at h2
        rw [h2]; exact List.mem_cons_self a _
      · rw [show qListMax (a :: r) = r.foldr max a from rfl] at h2
        exact List.mem_cons_of_mem a (List.mem_cons_of_mem b h2)

theorem qListMin_mem (a : ℚ) (r : List ℚ) : qListMin (a :: r) ∈ a :: r := by
  induction r generalizing a with
  | nil => exact List.mem_singleton.mpr rfl
  | cons b r ih =>
    show min b (r.foldr min a) ∈ a :: b :: r
    rcases min_choice b (r.foldr min a) with h | h
    · rw [h]; exact List.mem_cons_of_mem a (List.mem_cons_self b r)
    · rw [h]
      have := ih a
      rcases List.mem_cons.mp this with h2 | h2
      · rw [show qListMin (a :: r) = r.foldr min a from rfl] at h2
        rw [h2]; exact List.mem_cons_self a _
      · rw [show qListMin (a :: r) = r.foldr min a from rfl] at h2
        exact List.mem_cons_of_mem a (List.mem_cons_of_mem b h2)

/-! ### Row-level facts for the two graphs -/

instance plainStrDecidable (s : String) : Decidable (plainStr s) :=
  inferInstanceAs (Decidable (∀ c ∈ s.data, c ≠ '\x1b' ∧ c ≠ '<' ∧ c ≠ '\n'))

theorem label_base_longer (pre t suf : String) (hpre : pre.length = 6) (hsuf : suf.length = 3) :
    9 ≤ (pre ++ t ++ suf).length := by
  rw [strLen_append, strLen_append, hpre, hsuf]
  omega

theorem markers_plain (cells : List Bool) :
    plainStr (jsJoin "" (cells.map (fun b => if b then "**" else "  "))) := by
  apply jsJoin_plain (by decide)
  intro s hs
  rcases List.mem_map.mp hs with ⟨b, _, hb⟩
  cases b with
  | true => rw [← hb]; exact (by decide : plainStr "**")
  | false => rw [← hb]; exact (by decide : plainStr "  ")

theorem markers_length (cells : List Bool) :
    (jsJoin "" (cells.map (fun b => if b then "**" else "  "))).length = 2 * cells.length := by
  have := jsJoinEmpty_length 2 (cells.map (fun b => if b then "**" else "  "))
    (by
      intro s hs
      rcases List.mem_map.mp hs with ⟨b, _, hb⟩
      cases b with
      | true => rw [← hb]; decide
      | false => rw [← hb]; decide)
  rw [this, List.length_map]

theorem tempRowCells_length (f : Forecast) (i : ℕ) :
    (tempRowCells f i).length = f.hourly.length := by
  unfold tempRowCells scaledTemps tempsQ
  simp [List.length_map]

theorem precipRowCells_length (f : Forecast) (i : ℕ) :
    (precipRowCells f i).length = f.hourly.length := by
  unfold precipRowCells scaledPrecips probsQ
  simp [List.length_map]

theorem tempHLabel_plain (f : Forecast) :
    plainStr (jsSliceLast 9
      ("    H " ++ JSNum.toStr (JSNum.round (maxTemperature f)) ++ "F  ")) :=
  jsSliceLast_plain
    (plainStr_append (plainStr_append (by decide) (toStr_plain _)) (by decide)) 9

theorem tempLLabel_plain (f : Forecast) :
    plainStr (jsSliceLast 9
      ("    L " ++ JSNum.toStr (JSNum.round (minTemperature f)) ++ "F  ")) :=
  jsSliceLast_plain
    (plainStr_append (plainStr_append (by decide) (toStr_plain _)) (by decide)) 9

theorem precipRLabel_plain (f : Forecast) :
    plainStr (jsSliceLast 9 ("    R " ++
      JSNum.toStr (JSNum.round (JSNum.mul (maxPrecipProbability f) (JSNum.num 100))) ++
      "%  ")) :=
  jsSliceLast_plain
    (plainStr_append (plainStr_append (by decide) (toStr_plain _)) (by decide)) 9

theorem tempRowLabel_facts (f : Forecast) (format : Format) (i : ℕ) :
    (stripDecoration format (tempRowLabel f format i)).length = 9 ∧
      closedFor format (tempRowLabel f format i) ∧
      nlCount (tempRowLabel f format i) = 0 := by
  unfold tempRowLabel
  by_cases hi : i = 7
  · rw [if_pos hi]
    have hplain := tempHLabel_plain f
    have hsp := strip_plain format hplain
    have hb := strip_bold _ hsp.2
    refine ⟨?_, hb.2, ?_⟩
    · rw [hb.1, hsp.1]
      exact jsSliceLast_length (label_base_longer _ _ _ rfl rfl)
    · rw [nlCount_bold]
      exact plainStr_nlCount hplain
  · rw [if_neg hi]
    have hsp := strip_plain format PAD_plain
    exact ⟨by rw [hsp.1]; exact PAD_length, hsp.2, plainStr_nlCount PAD_plain⟩

theorem baselineLabel_facts (f : Forecast) (format : Format) :
    (stripDecoration format (bold (jsSliceLast 9
        ("    L " ++ JSNum.toStr (JSNum.round (minTemperature f)) ++ "F  ")) format)).length
      = 9 ∧
      closedFor format (bold (jsSliceLast 9
        ("    L " ++ JSNum.toStr (JSNum.round (minTemperature f)) ++ "F  ")) format) ∧
      nlCount (bold (jsSliceLast 9
        ("    L " ++ JSNum.toStr (JSNum.round (minTemperature f)) ++ "F  ")) format) = 0 := by
  have hplain := tempLLabel_plain f
  have hsp := strip_plain format hplain
  have hb := strip_bold _ hsp.2
  refine ⟨?_, hb.2, ?_⟩
  · rw [hb.1, hsp.1]
    exact jsSliceLast_length (label_base_longer _ _ _ rfl rfl)
  · rw [nlCount_bold]
    exact plainStr_nlCount hplain

theorem precipRowLabel_facts (f : Forecast) (format : Format) (i : ℕ) :
    (stripDecoration format (precipRowLabel f format i)).length = 9 ∧
      closedFor format (precipRowLabel f format i) ∧
      nlCount (precipRowLabel f format i) = 0 := by
  unfold precipRowLabel
  by_cases hi : scalePrecipitation (maxPrecipProbability f) = JSNum.num (i : ℚ)
  · rw [if_pos hi]
    have hplain := precipRLabel_plain f
    have hsp := strip_plain format hplain
    have hb := strip_bold _ hsp.2
    have hc := strip_cyan _ hb.2
    refine ⟨?_, hc.2, ?_⟩
    · rw [hc.1, hb.1, hsp.1]
      exact jsSliceLast_length (label_base_longer _ _ _ rfl rfl)
    · rw [nlCount_cyan, nlCount_bold]
      exact plainStr_nlCount hplain
  · rw [if_neg hi]
    have hsp := strip_plain format PAD_plain
    exact ⟨by rw [hsp.1]; exact PAD_length, hsp.2, plainStr_nlCount PAD_plain⟩

theorem tempRow_facts (f : Forecast) (format : Format) (i : ℕ) :
    (stripDecoration format (tempRow f format i)).length = 9 + 2 * f.hourly.length ∧
      nlCount (tempRow f format i) = 0 := by
  have hlab := tempRowLabel_facts f format i
  have hmp := markers_plain (tempRowCells f i)
  have hms := strip_plain format hmp
  constructor
  · unfold tempRow
    rw [strip_append _ _ hlab.2.1, strLen_append, hlab.1, hms.1, markers_length,
      tempRowCells_length]
  · unfold tempRow
    rw [nlCount_append, hlab.2.2, plainStr_nlCount hmp]

theorem baselineRow_facts (f : Forecast) (format : Format) :
    (stripDecoration format (baselineRow f format)).length = 9 + 2 * f.hourly.length ∧
      nlCount (baselineRow f format) = 0 := by
  have hlab := baselineLabel_facts f format
  have hrep_plain := strRepeat_plain (by decide : plainStr "**") (scaledTemps f).length
  have hrs := strip_plain format hrep_plain
  constructor
  · unfold baselineRow
    rw [strip_append _ _ hlab.2.1, strLen_append, hlab.1, hrs.1, strRepeat_length]
    have hn : (scaledTemps f).length = f.hourly.length := by
      unfold scaledTemps tempsQ
      simp [List.length_map]
    rw [hn, show ("**" : String).length = 2 from rfl]
    ring
  · unfold baselineRow
    rw [nlCount_append, hlab.2.2, plainStr_nlCount hrep_plain]

theorem precipRow_facts (f : Forecast) (format : Format) (i : ℕ) :
    (stripDecoration format (precipRow f format i)).length = 9 + 2 * f.hourly.length ∧
      nlCount (precipRow f format i) = 0 := by
  have hlab := precipRowLabel_facts f format i
  have hmp := markers_plain (precipRowCells f i)
  have hms := strip_plain format hmp
  have hcy := strip_cyan _ hms.2
  constructor
  · unfold precipRow
    rw [strip_append _ _ hlab.2.1, strLen_append, hlab.1, hcy.1, hms.1, markers_length,
      precipRowCells_length]
  · unfold precipRow
    rw [nlCount_append, hlab.2.2, nlCount_cyan, plainStr_nlCount hmp]

theorem tempRows_length (f : Forecast) (format : Format) :
    (tempRows f format).length = 8 := by
  unfold tempRows
  simp [List.length_map, List.length_reverse]

theorem precipRows_length (f : Forecast) (format : Format) :
    (precipRows f format).length = 5 := by
  unfold precipRows
  simp [List.length_map]

theorem tempRows_facts (f : Forecast) (format : Format) :
    ∀ row ∈ tempRows f format,
      (stripDecoration format row).length = 9 + 2 * f.hourly.length ∧ nlCount row = 0 := by
  intro row hrow
  unfold tempRows at hrow
  rcases List.mem_append.mp hrow with h | h
  · rcases List.mem_map.mp h with ⟨i, _, hi⟩
    rw [← hi]
    exact tempRow_facts f format i
  · rw [List.mem_singleton.mp h]
    exact baselineRow_facts f format

theorem precipRows_facts (f : Forecast) (format : Format) :
    ∀ row ∈ precipRows f format,
      (stripDecoration format row).length = 9 + 2 * f.hourly.length ∧ nlCount row = 0 := by
  intro row hrow
  unfold precipRows at hrow
  rcases List.mem_map.mp hrow with ⟨i, _, hi⟩
  rw [← hi]
  exact precipRow_facts f format i

theorem renderTemperatureGraph_lineCount (f : Forecast) (format : Format) :
    lineCount (renderTemperatureGraph f format) = 8 := by
  unfold lineCount renderTemperatureGraph
  have hne : tempRows f format ≠ [] := by
    intro h
    have := tempRows_length f format
    rw [h] at this
    cases this
  rw [nlCount_jsJoin _ hne fun s hs => (tempRows_facts f format s hs).2, tempRows_length]

theorem renderPrecipitationGraph_lineCount (f : Forecast) (format : Format)
    (h : maxPrecipProbability f ≠ JSNum.num 0) :
    lineCount (renderPrecipitationGraph f format) = 5 := by
  unfold lineCount renderPrecipitationGraph
  rw [if_neg h]
  have hne : precipRows f format ≠ [] := by
    intro h2
    have := precipRows_length f format
    rw [h2] at this
    cases this
  rw [nlCount_jsJoin _ hne fun s hs => (precipRows_facts f format s hs).2, precipRows_length]

theorem renderPrecipitationGraph_ne_empty (f : Forecast) (format : Format)
    (h : maxPrecipProbability f ≠ JSNum.num 0) :
    renderPrecipitationGraph f format ≠ "" := by
  intro h0
  have := renderPrecipitationGraph_lineCount f format h
  rw [h0] at this
  unfold lineCount at this
  rw [show nlCount "" = 0 from rfl] at this
  cases this

/-! ### Time-axis facts -/

theorem strAppend_assoc (a b c : String) : a ++ b ++ c = a ++ (b ++ c) :=
  strExt (by simp [strData_append])

theorem strNil_append (s : String) : "" ++ s = s :=
  strExt (by simp [strData_append, show ("" : String).data = [] from rfl])

theorem timeAux_nl (format : Format) (n : ℕ) :
    ∀ (fuel i : ℕ), nlCount (timeOffsetsAux format n fuel i) = 0 := by
  intro fuel
  induction fuel with
  | zero => intro i; rfl
  | succ fuel ih =>
    intro i
    simp only [timeOffsetsAux]
    by_cases h1 : i < n
    · rw [if_pos h1]
      by_cases h2 : i = n - 1
      · rw [if_pos h2, nlCount_bold]
        exact plainStr_nlCount (plainStr_append (jsNatStr_plain _) (by decide))
      · rw [if_neg h2]
        by_cases h3 : i % 6 = 0
        · rw [if_pos h3, nlCount_append, nlCount_bold, ih]
          rw [plainStr_nlCount (jsSliceFirst_plain
            (plainStr_append (jsNatStr_plain _) (by decide)) 4)]
        · rw [if_neg h3, nlCount_append, ih]
          rw [show nlCount "  " = 0 from by decide]
    · rw [if_neg h1]
      rfl

/-- The time-axis loop with all decoration removed: what
`stripDecoration` leaves of `timeOffsetsAux`. -/
def stripTimeAux (n : ℕ) : ℕ → ℕ → String
  | 0, _ => ""
  | fuel + 1, i =>
    if i < n then
      if i = n - 1 then jsNatStr (n - 1) ++ "h"
      else if i % 6 = 0 then
        jsSliceFirst 4 (jsNatStr i ++ "h   ") ++ stripTimeAux n fuel (i + 2)
      else "  " ++ stripTimeAux n fuel (i + 1)
    else ""

theorem timeAux_strip (format : Format) (n : ℕ) :
    ∀ (fuel i : ℕ),
      stripDecoration format (timeOffsetsAux format n fuel i) = stripTimeAux n fuel i ∧
        closedFor format (timeOffsetsAux format n fuel i) := by
  intro fuel
  induction fuel with
  | zero =>
    intro i
    rw [show timeOffsetsAux format n 0 i = "" from rfl,
      show stripTimeAux n 0 i = "" from rfl]
    exact strip_plain format (by decide)
  | succ fuel ih =>
    intro i
    simp only [timeOffsetsAux, stripTimeAux]
    by_cases h1 : i < n
    · rw [if_pos h1, if_pos h1]
      by_cases h2 : i = n - 1
      · rw [if_pos h2, if_pos h2]
        have hplain : plainStr (jsNatStr (n - 1) ++ "h") :=
          plainStr_append (jsNatStr_plain _) (by decide)
        have hsp := strip_plain format hplain
        have hb := strip_bold _ hsp.2
        exact ⟨hb.1.trans hsp.1, hb.2⟩
      · rw [if_neg h2, if_neg h2]
        by_cases h3 : i % 6 = 0
        · rw [if_pos h3, if_pos h3]
          have hplain : plainStr (jsSliceFirst 4 (jsNatStr i ++ "h   ")) :=
            jsSliceFirst_plain (plainStr_append (jsNatStr_plain _) (by decide)) 4
          have hsp := strip_plain format hplain
          have hb := strip_bold _ hsp.2
          constructor
          · rw [strip_append _ _ hb.2, hb.1, hsp.1, (ih (i + 2)).1]
          · exact closed_append _ _ hb.2 (ih (i + 2)).2
        · rw [if_neg h3, if_neg h3]
          have hsp := strip_plain format (by decide : plainStr "  ")
          constructor
          · rw [strip_append _ _ hsp.2, hsp.1, (ih (i + 1)).1]
          · exact closed_append _ _ hsp.2 (ih (i + 1)).2
    · rw [if_neg h1, if_neg h1]
      exact strip_plain format (by decide)

theorem renderTimeOffsets_lineCount (f : Forecast) (format : Format) :
    lineCount (renderTimeOffsets f format) = 1 := by
  unfold lineCount renderTimeOffsets
  rw [nlCount_append, plainStr_nlCount PAD_plain, timeAux_nl]

theorem renderTimeOffsets_strip (f : Forecast) (format : Format) :
    stripDecoration format (renderTimeOffsets f format) =
      PAD ++ stripTimeAux f.hourly.length f.hourly.length 0 := by
  unfold renderTimeOffsets
  rw [strip_append _ _ (strip_plain format PAD_plain).2, (strip_plain format PAD_plain).1,
    (timeAux_strip format f.hourly.length f.hourly.length 0).1]

/-- The final bold hour label is reached from any loop position that is not
one of the skipped columns, as long as the final column itself is not
skipped ((n-1) % 6 ≠ 1). -/
theorem timeAux_final (format : Format) (n : ℕ) :
    ∀ (fuel i : ℕ), n - i ≤ fuel → i < n → (n - 1) % 6 ≠ 1 → i % 6 ≠ 1 →
      ∃ pre, timeOffsetsAux format n fuel i =
        pre ++ bold (jsNatStr (n - 1) ++ "h") format := by
  intro fuel
  induction fuel with
  | zero => intro i hfuel hi _ _; omega
  | succ fuel ih =>
    intro i hfuel hi hn hi6
    simp only [timeOffsetsAux]
    rw [if_pos hi]
    by_cases h2 : i = n - 1
    · rw [if_pos h2]
      exact ⟨"", (strNil_append _).symm⟩
    · rw [if_neg h2]
      by_cases h3 : i % 6 = 0
      · rw [if_pos h3]
        have hnext : i + 2 < n := by omega
        have h6 : (i + 2) % 6 ≠ 1 := by omega
        rcases ih (i + 2) (by omega) hnext hn h6 with ⟨pre, hpre⟩
        refine ⟨bold (jsSliceFirst 4 (jsNatStr i ++ "h   ")) format ++ pre, ?_⟩
        rw [hpre, strAppend_assoc]
      · rw [if_neg h3]
        have hnext : i + 1 < n := by omega
        have h6 : (i + 1) % 6 ≠ 1 := by omega
        rcases ih (i + 1) (by omega) hnext hn h6 with ⟨pre, hpre⟩
        refine ⟨"  " ++ pre, ?_⟩
        rw [hpre, strAppend_assoc]

/-! ### Shape of the composed report -/

theorem strAppend_nil (s : String) : s ++ "" = s :=
  strExt (by simp [strData_append, show ("" : String).data = [] from rfl])

theorem bold_ne_empty (s : String) (format : Format) : bold s format ≠ "" := by
  cases format with
  | html =>
    intro h
    have h2 : (bold s Format.html).data = [] := by rw [h]
    rw [show bold s Format.html = "<strong>" ++ s ++ "</strong>" from rfl,
      strData_append, strData_append] at h2
    exact absurd (List.append_eq_nil.mp (List.append_eq_nil.mp h2).1).1 (by decide)
  | tty =>
    intro h
    have h2 : (bold s Format.tty).data = [] := by rw [h]
    rw [show bold s Format.tty = "\x1b[1m" ++ s ++ "\x1b[0m" from rfl,
      strData_append, strData_append] at h2
    exact absurd (List.append_eq_nil.mp (List.append_eq_nil.mp h2).1).1 (by decide)

theorem renderTimeOffsets_ne_empty (f : Forecast) (format : Format) :
    renderTimeOffsets f format ≠ "" := by
  intro h
  have h2 : (renderTimeOffsets f format).data = [] := by rw [h]
  rw [show renderTimeOffsets f format =
      PAD ++ timeOffsetsAux format f.hourly.length f.hourly.length 0 from rfl,
    strData_append] at h2
  exact absurd (List.append_eq_nil.mp h2).1 (by decide)

theorem renderTemperatureGraph_ne_empty (f : Forecast) (format : Format) :
    renderTemperatureGraph f format ≠ "" := by
  intro h
  have := renderTemperatureGraph_lineCount f format
  rw [h] at this
  unfold lineCount at this
  rw [show nlCount "" = 0 from rfl] at this
  cases this

/-- The tail a list contributes to a join: empty for the empty list, a
separator plus the joined list otherwise. -/
def jsJoinTail (sep : String) : List String → String
  | [] => ""
  | s :: rest => sep ++ jsJoin sep (s :: rest)

theorem jsJoin_cons_tail (sep x : String) (l : List String) :
    jsJoin sep (x :: l) = x ++ jsJoinTail sep l := by
  cases l with
  | nil => exact (strAppend_nil x).symm
  | cons y r => exact strAppend_assoc x sep (jsJoin sep (y :: r))

theorem jsJoin_pre_extract (sep : String) :
    ∀ (pre rest : List String), rest ≠ [] →
      ∃ A, jsJoin sep (pre ++ rest) = A ++ jsJoin sep rest := by
  intro pre
  induction pre with
  | nil => intro rest _; exact ⟨"", (strNil_append _).symm⟩
  | cons p pre ih =>
    intro rest hrest
    rcases ih rest hrest with ⟨A, hA⟩
    have hne : pre ++ rest ≠ [] := by
      intro h
      exact hrest (List.append_eq_nil.mp h).2
    refine ⟨p ++ sep ++ A, ?_⟩
    show jsJoin sep (p :: (pre ++ rest)) = p ++ sep ++ A ++ jsJoin sep rest
    rw [jsJoin_cons_tail]
    cases hpr : pre ++ rest with
    | nil => exact absurd hpr hne
    | cons y r =>
      rw [show jsJoinTail sep (y :: r) = sep ++ jsJoin sep (y :: r) from rfl]
      rw [← hpr, hA, strAppend_assoc, strAppend_assoc]

theorem render_kept (f : Forecast) (format : Format) :
    ((renderItems f format).filterMap id).filter (fun s => decide (s ≠ "")) =
      ((if format = Format.html then ["<html><pre>"] else ["\n"]) ++
       (if f.alerts.length = 0 then []
        else [bold ("Alerts:  " ++ jsJoin ", " f.alerts) format]) ++
       [bold ("Now:     " ++ intToString (jsRound f.feels_like) ++ "F, " ++
          f.current_summary) format,
        bold ("Later:   " ++ f.future_summary ++ "\n") format,
        renderTimeOffsets f format,
        renderTemperatureGraph f format] ++
       (if renderPrecipitationGraph f format = "" then []
        else [renderPrecipitationGraph f format]) ++
       (if format = Format.html then ["</pre></html>"] else [])) := by
  by_cases hA : f.alerts.length = 0 <;>
    by_cases hP : renderPrecipitationGraph f format = "" <;>
      cases format <;>
        simp [renderItems, hA, hP, List.filter_cons, bold_ne_empty,
          renderTimeOffsets_ne_empty, renderTemperatureGraph_ne_empty]

/-- The composed report always contains, in order: some head material, the
time axis, the temperature graph, the precipitation section (with its
separating newline) when it is nonempty, and some tail material. -/
theorem render_shape (f : Forecast) (format : Format) :
    ∃ A C, render f format =
      A ++ (renderTimeOffsets f format ++ ("\n" ++ (renderTemperatureGraph f format ++
        ((if renderPrecipitationGraph f format = "" then ""
          else "\n" ++ renderPrecipitationGraph f format) ++ C)))) := by
  unfold render
  rw [render_kept]
  by_cases hP : renderPrecipitationGraph f format = ""
  · rw [if_pos hP, if_pos hP]
    have hlist :
        ((if format = Format.html then ["<html><pre>"] else ["\n"]) ++
         (if f.alerts.length = 0 then []
          else [bold ("Alerts:  " ++ jsJoin ", " f.alerts) format]) ++
         [bold ("Now:     " ++ intToString (jsRound f.feels_like) ++ "F, " ++
            f.current_summary) format,
          bold ("Later:   " ++ f.future_summary ++ "\n") format,
          renderTimeOffsets f format,
          renderTemperatureGraph f format] ++
         ([] : List String) ++
         (if format = Format.html then ["</pre></html>"] else [])) =
        ((if format = Format.html then ["<html><pre>"] else ["\n"]) ++
         (if f.alerts.length = 0 then []
          else [bold ("Alerts:  " ++ jsJoin ", " f.alerts) format]) ++
         [bold ("Now:     " ++ intToString (jsRound f.feels_like) ++ "F, " ++
            f.current_summary) format,
          bold ("Later:   " ++ f.future_summary ++ "\n") format]) ++
        (renderTimeOffsets f format :: renderTemperatureGraph f format ::
          (if format = Format.html then ["</pre></html>"] else [])) := by
      simp
    rw [hlist]
    rcases jsJoin_pre_extract "\n" _
      (renderTimeOffsets f format :: renderTemperatureGraph f format ::
        (if format = Format.html then ["</pre></html>"] else [])) (by simp)
      with ⟨A, hA2⟩
    refine ⟨A,
      jsJoinTail "\n" (if format = Format.html then ["</pre></html>"] else []) ++ "\n\n",
      ?_⟩
    rw [hA2, jsJoin_cons_tail, show jsJoinTail "\n" (renderTemperatureGraph f format ::
        (if format = Format.html then ["</pre></html>"] else [])) =
      "\n" ++ jsJoin "\n" (renderTemperatureGraph f format ::
        (if format = Format.html then ["</pre></html>"] else [])) from rfl,
      jsJoin_cons_tail]
    simp [strAppend_assoc, strNil_append, strAppend_nil]
  · rw [if_neg hP, if_neg hP]
    have hlist :
        ((if format = Format.html then ["<html><pre>"] else ["\n"]) ++
         (if f.alerts.length = 0 then []
          else [bold ("Alerts:  " ++ jsJoin ", " f.alerts) format]) ++
         [bold ("Now:     " ++ intToString (jsRound f.feels_like) ++ "F, " ++
            f.current_summary) format,
          bold ("Later:   " ++ f.future_summary ++ "\n") format,
          renderTimeOffsets f format,
          renderTemperatureGraph f format] ++
         [renderPrecipitationGraph f format] ++
         (if format = Format.html then ["</pre></html>"] else [])) =
        ((if format = Format.html then ["<html><pre>"] else ["\n"]) ++
         (if f.alerts.length = 0 then []
          else [bold ("Alerts:  " ++ jsJoin ", " f.alerts) format]) ++
         [bold ("Now:     " ++ intToString (jsRound f.feels_like) ++ "F, " ++
            f.current_summary) format,
          bold ("Later:   " ++ f.future_summary ++ "\n") format]) ++
        (renderTimeOffsets f format :: renderTemperatureGraph f format ::
          renderPrecipitationGraph f format ::
          (if format = Format.html then ["</pre></html>"] else [])) := by
      simp
    rw [hlist]
    rcases jsJoin_pre_extract "\n" _
      (renderTimeOffsets f format :: renderTemperatureGraph f format ::
        renderPrecipitationGraph f format ::
        (if format = Format.html then ["</pre></html>"] else [])) (by simp)
      with ⟨A, hA2⟩
    refine ⟨A,
      jsJoinTail "\n" (if format = Format.html then ["</pre></html>"] else []) ++ "\n\n",
      ?_⟩
    rw [hA2, jsJoin_cons_tail, show jsJoinTail "\n" (renderTemperatureGraph f format ::
        renderPrecipitationGraph f format ::
        (if format = Format.html then ["</pre></html>"] else [])) =
      "\n" ++ jsJoin "\n" (renderTemperatureGraph f format ::
        renderPrecipitationGraph f format ::
        (if format = Format.html then ["</pre></html>"] else [])) from rfl,
      jsJoin_cons_tail, show jsJoinTail "\n" (renderPrecipitationGraph f format ::
        (if format = Format.html then ["</pre></html>"] else [])) =
      "\n" ++ jsJoin "\n" (renderPrecipitationGraph f format ::
        (if format = Format.html then ["</pre></html>"] else [])) from rfl,
      jsJoin_cons_tail]
    simp [strAppend_assoc, strNil_append, strAppend_nil]

/-! ### Rational views of the renderer's maxima, minima and scaling -/

theorem le_qListMax' (l : List ℚ) (hl : l ≠ []) (x : ℚ) (hx : x ∈ l) :
    x ≤ qListMax l := by
  cases l with
  | nil => exact absurd rfl hl
  | cons a r => exact le_qListMax x a r hx

theorem qListMin_le' (l : List ℚ) (hl : l ≠ []) (x : ℚ) (hx : x ∈ l) :
    qListMin l ≤ x := by
  cases l with
  | nil => exact absurd rfl hl
  | cons a r => exact qListMin_le x a r hx

theorem qListMax_mem' (l : List ℚ) (hl : l ≠ []) : qListMax l ∈ l := by
  cases l with
  | nil => exact absurd rfl hl
  | cons a r => exact qListMax_mem a r

theorem qListMin_mem' (l : List ℚ) (hl : l ≠ []) : qListMin l ∈ l := by
  cases l with
  | nil => exact absurd rfl hl
  | cons a r => exact qListMin_mem a r

theorem probsQ_ne_nil {f : Forecast} (hne : f.hourly ≠ []) : probsQ f ≠ [] := by
  unfold probsQ
  simpa using hne

theorem tempsQ_ne_nil {f : Forecast} (hne : f.hourly ≠ []) : tempsQ f ≠ [] := by
  unfold tempsQ
  simpa using hne

theorem maxPrecipProbability_num (f : Forecast) (hne : f.hourly ≠ []) :
    maxPrecipProbability f = JSNum.num (qListMax (probsQ f)) := by
  unfold maxPrecipProbability
  cases hl : probsQ f with
  | nil => exact absurd hl (probsQ_ne_nil hne)
  | cons a r => exact jsMax_num a r

theorem maxTemperature_num (f : Forecast) (hne : f.hourly ≠ []) :
    maxTemperature f = JSNum.num (qListMax (tempsQ f)) := by
  unfold maxTemperature
  cases hl : tempsQ f with
  | nil => exact absurd hl (tempsQ_ne_nil hne)
  | cons a r => exact jsMax_num a r

theorem minTemperature_num (f : Forecast) (hne : f.hourly ≠ []) :
    minTemperature f = JSNum.num (qListMin (tempsQ f)) := by
  unfold minTemperature
  cases hl : tempsQ f with
  | nil => exact absurd hl (tempsQ_ne_nil hne)
  | cons a r => exact jsMin_num a r

theorem maxPrecip_zero_of_all_zero (f : Forecast) (hne : f.hourly ≠ [])
    (h : ∀ p ∈ probsQ f, p = 0) : maxPrecipProbability f = JSNum.num 0 := by
  rw [maxPrecipProbability_num f hne]
  rw [h _ (qListMax_mem' _ (probsQ_ne_nil hne))]

theorem maxPrecip_ne_zero (f : Forecast) (hne : f.hourly ≠ [])
    (hpos : ∀ p ∈ probsQ f, 0 ≤ p) (hex : ∃ p ∈ probsQ f, p ≠ 0) :
    maxPrecipProbability f ≠ JSNum.num 0 := by
  rcases hex with ⟨p, hp, hp0⟩
  rw [maxPrecipProbability_num f hne]
  intro h
  have h1 : qListMax (probsQ f) = 0 := JSNum.num.inj h
  have h2 := le_qListMax' _ (probsQ_ne_nil hne) p hp
  rw [h1] at h2
  exact hp0 (le_antisymm h2 (hpos p hp))

/-- The precipitation section is empty exactly when the whole (nonempty,
nonnegative) probability series is zero. -/
theorem renderPrecipitation_empty_iff (f : Forecast) (format : Format)
    (hne : f.hourly ≠ []) (hpos : ∀ p ∈ probsQ f, 0 ≤ p) :
    (renderPrecipitationGraph f format = "" ↔ ∀ p ∈ probsQ f, p = 0) := by
  constructor
  · intro h
    by_cases hc : maxPrecipProbability f = JSNum.num 0
    · rw [maxPrecipProbability_num f hne] at hc
      have hmax0 : qListMax (probsQ f) = 0 := JSNum.num.inj hc
      intro p hp
      have h2 := le_qListMax' _ (probsQ_ne_nil hne) p hp
      rw [hmax0] at h2
      exact le_antisymm h2 (hpos p hp)
    · exact absurd h (renderPrecipitationGraph_ne_empty f format hc)
  · intro h
    unfold renderPrecipitationGraph
    rw [if_pos (maxPrecip_zero_of_all_zero f hne h)]

theorem JSNum.sub_num (a b : ℚ) :
    JSNum.sub (JSNum.num a) (JSNum.num b) = JSNum.num (qsub a b) := rfl

theorem JSNum.mul_num (a b : ℚ) :
    JSNum.mul (JSNum.num a) (JSNum.num b) = JSNum.num (qmul a b) := rfl

theorem JSNum.round_num (q : ℚ) :
    JSNum.round (JSNum.num q) = JSNum.num ((jsRound q : ℤ) : ℚ) := rfl

theorem JSNum.div_num (a b : ℚ) (hb : b ≠ 0) :
    JSNum.div (JSNum.num a) (JSNum.num b) = JSNum.num (qdiv a b) := by
  show (if b = 0 then
      if a = 0 then JSNum.nan else if 0 < a then JSNum.posInf else JSNum.negInf
    else JSNum.num (qdiv a b)) = JSNum.num (qdiv a b)
  rw [if_neg hb]

/-- The scaling formula exactly as the specification words it:
`scale(t) = round((t − minT) / (maxT − minT) × graphHeight)` with
`graphHeight = 7` and round-half-up. -/
def specScale (minT maxT t : ℚ) : ℤ := ⌊(t - minT) / (maxT - minT) * 7 + 1 / 2⌋

/-- On a non-degenerate range the code's JS-number scaling agrees with the
specification's rational formula. -/
theorem scaleTemperature_num (minq maxq t : ℚ) (hlt : minq ≠ maxq) :
    scaleTemperature (JSNum.num minq) (JSNum.num maxq) (JSNum.num t) =
      JSNum.num ((specScale minq maxq t : ℤ) : ℚ) := by
  have hden : qsub maxq minq ≠ 0 := by
    rw [qsub_eq]
    exact sub_ne_zero.mpr (Ne.symm hlt)
  unfold scaleTemperature
  rw [JSNum.sub_num, JSNum.sub_num, JSNum.div_num _ _ hden, JSNum.mul_num, JSNum.round_num]
  have harg : jsRound (qmul (qdiv (qsub t minq) (qsub maxq minq)) 7) =
      specScale minq maxq t := by
    rw [jsRound_eq, qmul_eq, qdiv_eq, qsub_eq, qsub_eq]
    rfl
  rw [harg]

theorem qMinMax_ne (l : List ℚ) (hl : l ≠ [])
    (h : ∃ a ∈ l, ∃ b ∈ l, a ≠ b) : qListMin l ≠ qListMax l := by
  rcases h with ⟨a, ha, b, hb, hab⟩
  intro he
  have h1 := qListMin_le' l hl a ha
  have h2 := le_qListMax' l hl a ha
  have h3 := qListMin_le' l hl b hb
  have h4 := le_qListMax' l hl b hb
  rw [← he] at h2 h4
  exact hab ((le_antisymm h2 h1).trans (le_antisymm h3 h4))

/-! ### Remaining support lemmas -/

theorem scaledTemps_length (f : Forecast) :
    (scaledTemps f).length = f.hourly.length := by
  unfold scaledTemps tempsQ
  simp [List.length_map]

theorem ge_num_mono (t : JSNum) (i j : ℚ) (hj : j ≤ i)
    (h : JSNum.ge t (JSNum.num i) = true) : JSNum.ge t (JSNum.num j) = true := by
  cases t with
  | num a =>
    simp only [JSNum.ge, decide_eq_true_eq] at h ⊢
    exact le_trans hj h
  | posInf => rfl
  | negInf => simp [JSNum.ge] at h
  | nan => simp [JSNum.ge] at h

theorem toStr_intCast (i : ℤ) :
    JSNum.toStr (JSNum.num ((i : ℤ) : ℚ)) = intToString i := by
  show intToString (Rat.floor ((i : ℚ))) = intToString i
  rw [ratFloor_eq, Int.floor_intCast]

/-! ### Concrete inputs used by witnesses and counterexamples -/

/-- Helper to build one hour-slot. -/
def mkHour (t fl p : ℚ) : HourlyForecast := ⟨t, fl, p⟩

/-- The spec's worked scaling example: feels-like 30, 40, 50. -/
def forecast340 : Forecast := ⟨[], 0, 50, "", "", [mkHour 30 30 0, mkHour 40 40 0, mkHour 50 50 0]⟩

/-- A uniform feels-like series (the scaling-degeneracy input). -/
def forecastUniform : Forecast := ⟨[], 0, 0, "", "", [mkHour 50 50 0, mkHour 50 50 0]⟩

/-- A single hour with precipitation probability 0.05 (rounds to band 0). -/
def forecastDrizzle : Forecast := ⟨[], 0, 0, "", "", [mkHour 0 0 (mkRat 1 20)]⟩

/-- Two hours, max precipitation probability 0.5. -/
def forecastRain : Forecast :=
  ⟨[], 0, 0, "", "", [mkHour 30 30 0, mkHour 40 40 (mkRat 1 2)]⟩

/-- A forecast whose hourly series is empty. -/
def forecastEmptyHourly : Forecast := ⟨[], 0, 0, "", "", []⟩

/-- A 25-column forecast (offsets 0..24). -/
def forecast25 : Forecast := ⟨[], 0, 0, "", "", List.replicate 25 (mkHour 0 0 0)⟩

/-- An 8-column forecast (offsets 0..7; the final column is skipped). -/
def forecast8 : Forecast := ⟨[], 0, 0, "", "", List.replicate 8 (mkHour 0 0 0)⟩

/-! ### The claims -/

/-- C1 counterexample: on the forecast whose hourly series is empty, every
precipitation probability is (vacuously) zero, yet the precipitation
renderer does not return the empty string — `Math.max()` of an empty spread
is `-Infinity`, which the `=== 0` guard misses — so the composed report
still carries 5 precipitation rows.  This refutes the claim's "0 iff every
precipitation_probability equals 0" for an arbitrary Forecast. -/
theorem C1_counterexample :
    (∀ p ∈ probsQ forecastEmptyHourly, p = 0) ∧
      renderPrecipitationGraph forecastEmptyHourly Format.tty ≠ "" ∧
      lineCount (renderPrecipitationGraph forecastEmptyHourly Format.tty) = 5 :=
  ⟨by decide, by decide, by decide⟩

/-- C1 (amended to forecasts with a non-empty hourly series of nonnegative
probabilities): the rendered report contains exactly one time-axis line,
exactly 8 temperature-graph lines, and a precipitation section that is empty
iff every precipitation probability is 0 (5 lines otherwise); the composer
joins the sections in order and drops the empty precipitation section. -/
theorem C1_render_line_counts (f : Forecast) (format : Format)
    (hne : f.hourly ≠ []) (hpos : ∀ p ∈ probsQ f, 0 ≤ p) :
    lineCount (renderTimeOffsets f format) = 1 ∧
    lineCount (renderTemperatureGraph f format) = 8 ∧
    ((∀ p ∈ probsQ f, p = 0) → renderPrecipitationGraph f format = "") ∧
    ((∃ p ∈ probsQ f, p ≠ 0) →
      renderPrecipitationGraph f format ≠ "" ∧
        lineCount (renderPrecipitationGraph f format) = 5) ∧
    (∃ A C, render f format = A ++ (renderTimeOffsets f format ++ ("\n" ++
      (renderTemperatureGraph f format ++
        ((if renderPrecipitationGraph f format = "" then ""
          else "\n" ++ renderPrecipitationGraph f format) ++ C))))) := by
  refine ⟨renderTimeOffsets_lineCount f format, renderTemperatureGraph_lineCount f format,
    (renderPrecipitation_empty_iff f format hne hpos).mpr, ?_, render_shape f format⟩
  intro hex
  have hne0 := maxPrecip_ne_zero f hne hpos hex
  exact ⟨renderPrecipitationGraph_ne_empty f format hne0,
    renderPrecipitationGraph_lineCount f format hne0⟩

/-- C1 witness: the two-hour forecast with rain renders a nonempty 5-line
precipitation section and an 8-line temperature graph. -/
theorem C1_witness :
    renderPrecipitationGraph forecastRain Format.tty ≠ "" ∧
      lineCount (renderPrecipitationGraph forecastRain Format.tty) = 5 ∧
      lineCount (renderTemperatureGraph forecastRain Format.tty) = 8 :=
  have h := C1_render_line_counts forecastRain Format.tty (by decide) (by decide)
  ⟨(h.2.2.2.1 (by decide)).1, (h.2.2.2.1 (by decide)).2, h.2.1⟩

/-- C7 counterexample: for `s = "<"` and the html format, stripping the
decoration from `cyan (bold s)` does not recover `s` — the bare `<` opens a
bogus tag that swallows the closing markup. -/
theorem C7_counterexample :
    stripDecoration Format.html (cyan (bold "<" Format.html) Format.html) ≠ "<" := by
  decide

/-- C7 (amended to strings containing no markup-opening character of the
chosen format, i.e. no ESC for tty and no `<` for html): both compositions
of `bold` and `cyan` contain `s` as a contiguous substring, and stripping
all decoration from either recovers exactly `s`. -/
theorem C7_decoration_roundtrip (s : String) (format : Format)
    (h : ∀ c ∈ s.data, opFor format c = false) :
    (∃ p q, cyan (bold s format) format = p ++ (s ++ q)) ∧
    (∃ p q, bold (cyan s format) format = p ++ (s ++ q)) ∧
    stripDecoration format (cyan (bold s format) format) = s ∧
    stripDecoration format (bold (cyan s format) format) = s := by
  have hsp : stripDecoration format s = s ∧ closedFor format s := by
    have := stripAux_plain (opFor format) (clFor format) s.data h
    exact ⟨strExt this.1, this.2⟩
  have hb := strip_bold s hsp.2
  have hcb := strip_cyan _ hb.2
  have hc := strip_cyan s hsp.2
  have hbc := strip_bold _ hc.2
  refine ⟨?_, ?_, hcb.1.trans (hb.1.trans hsp.1), hbc.1.trans (hc.1.trans hsp.1)⟩
  · rw [bold_eq_wrap, cyan_eq_wrap]
    refine ⟨(if format = Format.html then "<span style=\"color: teal\">" else "\x1b[36m") ++
      (if format = Format.html then "<strong>" else "\x1b[1m"),
      (if format = Format.html then "</strong>" else "\x1b[0m") ++
      (if format = Format.html then "</span>" else "\x1b[0m"), ?_⟩
    simp [strAppend_assoc]
  · rw [bold_eq_wrap, cyan_eq_wrap]
    refine ⟨(if format = Format.html then "<strong>" else "\x1b[1m") ++
      (if format = Format.html then "<span style=\"color: teal\">" else "\x1b[36m"),
      (if format = Format.html then "</span>" else "\x1b[0m") ++
      (if format = Format.html then "</strong>" else "\x1b[0m"), ?_⟩
    simp [strAppend_assoc]

/-- C7 witness: the roundtrip at a concrete plain string and the tty format. -/
theorem C7_witness :
    stripDecoration Format.tty (cyan (bold "R 50%" Format.tty) Format.tty) = "R 50%" ∧
      ∃ p q, cyan (bold "R 50%" Format.tty) Format.tty = p ++ ("R 50%" ++ q) :=
  have h := C7_decoration_roundtrip "R 50%" Format.tty (by decide)
  ⟨h.2.2.1, h.1⟩

/-- The specification's normalization mapping (§4.1) for payloads whose
required nested blocks are present: alert titles (empty when the alerts
collection is absent), current conditions, the hourly summary, and the
first 25 hourly entries. -/
def specNormalize (al : Option (List DarkSkyAlert)) (cur : DarkSkyCurrently)
    (hb : DarkSkyHourly) (dat : List DarkSkyHour) : Forecast :=
  { alerts := (al.map (List.map DarkSkyAlert.title)).getD []
    temperature := cur.temperature
    feels_like := cur.apparentTemperature
    current_summary := cur.summary
    future_summary := hb.summary
    hourly := (dat.take 25).map fun h =>
      { temperature := h.temperature
        feels_like := h.apparentTemperature
        precipitation_probability := h.precipProbability } }

/-- C8: normalization fails with an error exactly when a required nested
block (`currently`, `hourly`, or the hourly `data` series) is absent, and on
payloads with those blocks present it returns the canonical Forecast of the
spec's mapping — alert titles (empty sequence when no alerts collection) and
the first 25 hourly entries.  The error is the propagated `Except.error`
value: the normalizer has no retry or recovery branch. -/
theorem C8_normalization (d : DarkSkyPayload) :
    ((d.currently = none ∨ d.hourly = none ∨
        (∃ hb, d.hourly = some hb ∧ hb.data = none)) →
      ∃ e, transformDarkSkyForecast d = Except.error e) ∧
    (∀ cur hb dat, d.currently = some cur → d.hourly = some hb → hb.data = some dat →
      transformDarkSkyForecast d = Except.ok (specNormalize d.alerts cur hb dat)) := by
  obtain ⟨al, cu, ho⟩ := d
  constructor
  · intro h
    cases cu with
    | none => exact ⟨_, rfl⟩
    | some cur =>
      cases ho with
      | none => exact ⟨_, rfl⟩
      | some hb2 =>
        rcases h with h | h | ⟨hb3, hhb3, hdat⟩
        · simp at h
        · simp at h
        · obtain ⟨summ, dat⟩ := hb2
          have hb3e : hb3 = ⟨summ, dat⟩ := by
            injection hhb3 with h2
            exact h2.symm
          subst hb3e
          simp only at hdat
          subst hdat
          exact ⟨_, rfl⟩
  · intro cur hb dat hcur hho hdat
    cases cu with
    | none => cases hcur
    | some cur2 =>
      cases ho with
      | none => cases hho
      | some hb2 =>
        injection hcur with hcur2
        injection hho with hho2
        rw [hcur2, hho2]
        obtain ⟨summ, dat2⟩ := hb
        obtain rfl : dat2 = some dat := hdat
        cases al <;> rfl

/-- A payload with every required block absent. -/
def payloadMissing : DarkSkyPayload := ⟨none, none, none⟩

/-- A fully populated payload. -/
def payloadFull : DarkSkyPayload :=
  ⟨some [⟨"Flood Watch"⟩], some ⟨40, 38, "Cloudy"⟩,
    some ⟨"Rain later", some [⟨40, 38, mkRat 1 2⟩]⟩⟩

/-- C8 witness: the missing-blocks payload errors; the full payload maps to
the spec's canonical Forecast. -/
theorem C8_witness :
    (∃ e, transformDarkSkyForecast payloadMissing = Except.error e) ∧
      transformDarkSkyForecast payloadFull =
        Except.ok (specNormalize payloadFull.alerts ⟨40, 38, "Cloudy"⟩
          ⟨"Rain later", some [⟨40, 38, mkRat 1 2⟩]⟩ [⟨40, 38, mkRat 1 2⟩]) :=
  ⟨(C8_normalization payloadMissing).1 (Or.inl rfl),
   (C8_normalization payloadFull).2 _ _ _ rfl rfl rfl⟩

/-- C9: on a uniform feels-like series the scaling divides zero by zero.
The code evaluates `(t - minT) / (maxT - minT)` to `NaN`, every `>= i`
comparison is then `false`, and all seven marker rows render blank — the
fill-deciding value is the propagated invalid `NaN`, not a well-defined
number, contradicting the claim (the spec itself flags this in §9). -/
theorem C9_degenerate_nan :
    scaleTemperature (minTemperature forecastUniform) (maxTemperature forecastUniform)
        (JSNum.num 50) = JSNum.nan ∧
      scaledTemps forecastUniform = [JSNum.nan, JSNum.nan] ∧
      (∀ i, i < 8 → 1 ≤ i → tempRowCells forecastUniform i = [false, false]) :=
  ⟨by decide, by decide, by decide⟩

/-- C10: the render entry point is total on the whole data model, including
the empty hourly series (where `Math.max()` is `-Infinity` and
`Math.min()` is `Infinity`): for every forecast and format the output is a
complete report ending in two newlines, with one time-axis line, 8
temperature-graph lines, and a precipitation section that is either absent
or 5 lines. -/
theorem C10_render_total (f : Forecast) (format : Format) :
    lineCount (renderTimeOffsets f format) = 1 ∧
    lineCount (renderTemperatureGraph f format) = 8 ∧
    (renderPrecipitationGraph f format = "" ∨
      lineCount (renderPrecipitationGraph f format) = 5) ∧
    (∃ body, render f format = body ++ "\n\n") := by
  refine ⟨renderTimeOffsets_lineCount f format, renderTemperatureGraph_lineCount f format,
    ?_, ?_⟩
  · by_cases h : maxPrecipProbability f = JSNum.num 0
    · left
      unfold renderPrecipitationGraph
      rw [if_pos h]
    · right
      exact renderPrecipitationGraph_lineCount f format h
  · exact ⟨_, rfl⟩

/-- C2: whenever the feels-like values are not all equal, the code's
temperature scaling agrees with the spec formula
`scale(t) = round((t − minT)/(maxT − minT) × 7)` under round-half-up
(`round(x) = ⌊x + 1/2⌋`), with `minT`/`maxT` the series minimum/maximum. -/
theorem C2_scaleTemperature_spec (f : Forecast)
    (h : ∃ a ∈ tempsQ f, ∃ b ∈ tempsQ f, a ≠ b) :
    ∀ t ∈ tempsQ f,
      scaleTemperature (minTemperature f) (maxTemperature f) (JSNum.num t) =
        JSNum.num ((specScale (qListMin (tempsQ f)) (qListMax (tempsQ f)) t : ℤ) : ℚ) := by
  intro t _
  have hne : tempsQ f ≠ [] := by
    rcases h with ⟨a, ha, _⟩
    intro h0
    rw [h0] at ha
    cases ha
  have hhne : f.hourly ≠ [] := by
    intro h0
    apply hne
    unfold tempsQ
    rw [h0]
    rfl
  rw [minTemperature_num f hhne, maxTemperature_num f hhne]
  exact scaleTemperature_num _ _ _ (qMinMax_ne _ hne h)

/-- C2 witness: on feels-like series 30, 40, 50 the code's scaling matches
the spec formula, and the spec formula gives 0, 4 (= round(3.5) half-up)
and 7 at the three points. -/
theorem C2_witness :
    scaleTemperature (minTemperature forecast340) (maxTemperature forecast340)
        (JSNum.num 40) =
      JSNum.num ((specScale (qListMin (tempsQ forecast340))
        (qListMax (tempsQ forecast340)) 40 : ℤ) : ℚ) ∧
      qListMin (tempsQ forecast340) = 30 ∧ qListMax (tempsQ forecast340) = 50 ∧
      specScale 30 50 30 = 0 ∧ specScale 30 50 40 = 4 ∧ specScale 30 50 50 = 7 := by
  refine ⟨C2_scaleTemperature_spec forecast340 (by decide) 40 (by decide),
    by decide, by decide, ?_, ?_, ?_⟩
  · show ⌊((30 : ℚ) - 30) / (50 - 30) * 7 + 1 / 2⌋ = 0
    norm_num
  · show ⌊((40 : ℚ) - 30) / (50 - 30) * 7 + 1 / 2⌋ = 4
    norm_num
  · show ⌊((50 : ℚ) - 30) / (50 - 30) * 7 + 1 / 2⌋ = 7
    norm_num

/-- C3: bars grow from the floor — on a valid (not-all-equal) series, a
column filled at temperature row `i` is filled at every lower row, and the
last row of the temperature graph is the baseline, fully filled across all
columns. -/
theorem C3_monotone (f : Forecast) (format : Format)
    (hvalid : ∃ a ∈ tempsQ f, ∃ b ∈ tempsQ f, a ≠ b)
    (i j c : ℕ) (h1 : 1 ≤ j) (h2 : j ≤ i) :
    ((tempRowCells f i)[c]? = some true → (tempRowCells f j)[c]? = some true) ∧
    (∃ lbl, (tempRows f format).getLast? =
      some (lbl ++ strRepeat "**" f.hourly.length)) := by
  constructor
  · intro hc
    unfold tempRowCells at hc ⊢
    rw [List.getElem?_map] at hc ⊢
    rcases Option.map_eq_some'.mp hc with ⟨t, ht, hget⟩
    rw [ht]
    show Option.map _ (some t) = some true
    rw [Option.map_some']
    have : JSNum.ge t (JSNum.num (j : ℚ)) = true :=
      ge_num_mono t (i : ℚ) (j : ℚ) (by exact_mod_cast h2) hget
    rw [this]
  · refine ⟨bold (jsSliceLast 9
      ("    L " ++ JSNum.toStr (JSNum.round (minTemperature f)) ++ "F  ")) format, ?_⟩
    unfold tempRows
    rw [List.getLast?_concat]
    unfold baselineRow
    rw [scaledTemps_length]

/-- C3 witness: with feels-like 30, 40, 50 (scaled 0, 4, 7), column 2 is
filled at row 3 and hence also at row 1. -/
theorem C3_witness :
    (tempRowCells forecast340 3)[2]? = some true ∧
      (tempRowCells forecast340 1)[2]? = some true := by
  have h := C3_monotone forecast340 Format.tty (by decide) 3 1 2 (by decide) (by decide)
  exact ⟨by decide, h.1 (by decide)⟩

/-- C5 counterexample: with 8 columns (offsets 0..7) the 6th-column label at
offset 6 consumes the final column, so no label for the final offset 7 is
printed anywhere in the time axis (the character `7` never occurs). -/
theorem C5_counterexample :
    forecast8.hourly.length - 1 = 7 ∧
      '7' ∉ (renderTimeOffsets forecast8 Format.tty).data :=
  ⟨by decide, by decide⟩

/-- C5 (amended): the time axis ends with a bold label for the final
column's hour offset whenever the number of columns `n` satisfies
`n % 6 ≠ 2` (otherwise the final column is swallowed by the preceding
6th-column label); and on 25 columns the axis is exactly the labels
"0h", "6h", "12h", "18h" and a final bold "24h" with blanks between. -/
theorem C5_time_axis (f : Forecast) (format : Format)
    (hne : 1 ≤ f.hourly.length) (hskip : f.hourly.length % 6 ≠ 2) :
    (∃ pre, renderTimeOffsets f format =
      pre ++ bold (jsNatStr (f.hourly.length - 1) ++ "h") format) ∧
    renderTimeOffsets forecast25 Format.tty =
      PAD ++ bold "0h  " Format.tty ++ "        " ++ bold "6h  " Format.tty ++
      "        " ++ bold "12h " Format.tty ++ "        " ++ bold "18h " Format.tty ++
      "        " ++ bold "24h" Format.tty := by
  constructor
  · rcases timeAux_final format f.hourly.length f.hourly.length 0 (by omega) (by omega)
      (by omega) (by omega) with ⟨pre, hpre⟩
    refine ⟨PAD ++ pre, ?_⟩
    unfold renderTimeOffsets
    rw [hpre, strAppend_assoc]
  · decide

/-- C5 witness: the 25-column axis ends in the bold final label "24h". -/
theorem C5_witness :
    ∃ pre, renderTimeOffsets forecast25 Format.tty =
      pre ++ bold (jsNatStr 24 ++ "h") Format.tty :=
  (C5_time_axis forecast25 Format.tty (by decide) (by decide)).1

/-- C6 counterexample: at 25 columns the stripped time axis is 60 characters
(the final label "24h" is three characters wide, one more than its column),
not the 9 + 2·25 = 59 characters of every graph row — the claimed common
length invariant fails for the time axis. -/
theorem C6_counterexample :
    (stripDecoration Format.tty (renderTimeOffsets forecast25 Format.tty)).length ≠
      9 + 2 * forecast25.hourly.length := by
  decide

/-- C6 (amended): after stripping decoration every temperature row (baseline
included) and every precipitation row has length 9 + 2n; the time axis has
that length only when `n ≤ 10` (one-digit final label) or `n % 6 = 2` (no
final label), and is one character longer otherwise. -/
theorem C6_alignment (f : Forecast) (format : Format)
    (h1 : 1 ≤ f.hourly.length) (h2 : f.hourly.length ≤ 25) :
    (∀ row ∈ tempRows f format,
      (stripDecoration format row).length = 9 + 2 * f.hourly.length) ∧
    (∀ row ∈ precipRows f format,
      (stripDecoration format row).length = 9 + 2 * f.hourly.length) ∧
    (stripDecoration format (renderTimeOffsets f format)).length =
      9 + 2 * f.hourly.length +
        (if f.hourly.length ≤ 10 ∨ f.hourly.length % 6 = 2 then 0 else 1) := by
  refine ⟨fun row hr => (tempRows_facts f format row hr).1,
    fun row hr => (precipRows_facts f format row hr).1, ?_⟩
  rw [renderTimeOffsets_strip, strLen_append, PAD_length]
  have hfin : ∀ n, n < 26 → 1 ≤ n →
      (stripTimeAux n n 0).length =
        2 * n + (if n ≤ 10 ∨ n % 6 = 2 then 0 else 1) := by decide
  have h3 := hfin f.hourly.length (by omega) h1
  rw [h3]
  generalize (if f.hourly.length ≤ 10 ∨ f.hourly.length % 6 = 2 then 0 else 1) = e
  omega

/-- C6 witness: at 25 columns the stripped axis is 9 + 50 + 1 = 60
characters long. -/
theorem C6_witness :
    (stripDecoration Format.tty (renderTimeOffsets forecast25 Format.tty)).length =
      9 + 2 * 25 + 1 := by
  have h := (C6_alignment forecast25 Format.tty (by decide) (by decide)).2.2
  rw [show forecast25.hourly.length = 25 from rfl] at h
  norm_num at h
  norm_num
  exact h

/-- C4 counterexample: with a single hour of probability 0.05, the maximum
probability is positive so the graph renders, but `round(0.05 × 5) = 0`
matches no row index in 1..5 — no rendered row carries the special label,
refuting "exactly one rendered row carries the label" for every positive
maximum. -/
theorem C4_counterexample :
    qListMax (probsQ forecastDrizzle) > 0 ∧
      maxPrecipProbability forecastDrizzle ≠ JSNum.num 0 ∧
      renderPrecipitationGraph forecastDrizzle Format.tty ≠ "" ∧
      (∀ i, i < 6 → 1 ≤ i → precipRowLabel forecastDrizzle Format.tty i = PAD) :=
  ⟨by decide, by decide, by decide, by decide⟩

/-- C4 (amended by the extra premise `round(maxP × 5) ≥ 1`, i.e.
`maxP ≥ 0.1`, which the original claim misses): the precipitation graph is
rendered, and exactly the row whose 1-based index equals `round(maxP × 5)`
carries the cyan bold 9-character label built from
`"    R <round(maxP×100)>%  ".slice(-9)`; every other row keeps the blank
9-character slot. -/
theorem C4_label_row (f : Forecast) (format : Format)
    (hne : f.hourly ≠ []) (hprob : ∀ p ∈ probsQ f, 0 ≤ p ∧ p ≤ 1)
    (hk : 1 ≤ jsRound (qmul (qListMax (probsQ f)) 5)) :
    ∃ k : ℕ, (k : ℤ) = jsRound (qmul (qListMax (probsQ f)) 5) ∧ 1 ≤ k ∧ k ≤ 5 ∧
      (∃ lbl, precipRowLabel f format k = cyan (bold lbl format) format ∧
        lbl.length = 9 ∧
        lbl = jsSliceLast 9 ("    R " ++
          intToString (jsRound (qmul (qListMax (probsQ f)) 100)) ++ "%  ")) ∧
      (∀ i : ℕ, i ≠ k → precipRowLabel f format i = PAD) ∧
      renderPrecipitationGraph f format = jsJoin "\n" (precipRows f format) := by
  have hmax := maxPrecipProbability_num f hne
  have hmem := qListMax_mem' _ (probsQ_ne_nil hne)
  have h01 := hprob _ hmem
  have hj5 : jsRound (qmul (qListMax (probsQ f)) 5) ≤ 5 := by
    rw [jsRound_eq, qmul_eq]
    have : qListMax (probsQ f) * 5 + 1 / 2 < 6 := by nlinarith [h01.2]
    have h6 : ⌊qListMax (probsQ f) * 5 + 1 / 2⌋ < 6 := Int.floor_lt.mpr (by exact_mod_cast this)
    omega
  refine ⟨(jsRound (qmul (qListMax (probsQ f)) 5)).toNat, ?_, ?_, ?_, ?_, ?_, ?_⟩
  · exact Int.toNat_of_nonneg (by omega)
  · omega
  · omega
  · have hcond : scalePrecipitation (maxPrecipProbability f) =
        JSNum.num (((jsRound (qmul (qListMax (probsQ f)) 5)).toNat : ℕ) : ℚ) := by
      rw [hmax]
      show JSNum.round (JSNum.mul (JSNum.num (qListMax (probsQ f))) (JSNum.num 5)) = _
      rw [JSNum.mul_num, JSNum.round_num]
      congr 1
      have := Int.toNat_of_nonneg
        (show (0 : ℤ) ≤ jsRound (qmul (qListMax (probsQ f)) 5) by omega)
      exact_mod_cast this.symm
    refine ⟨jsSliceLast 9 ("    R " ++
      intToString (jsRound (qmul (qListMax (probsQ f)) 100)) ++ "%  "), ?_, ?_, rfl⟩
    · unfold precipRowLabel
      rw [if_pos hcond, hmax]
      show cyan (bold (jsSliceLast 9 ("    R " ++
        JSNum.toStr (JSNum.round (JSNum.mul (JSNum.num (qListMax (probsQ f)))
          (JSNum.num 100))) ++ "%  ")) format) format = _
      rw [JSNum.mul_num, JSNum.round_num, toStr_intCast]
    · exact jsSliceLast_length (label_base_longer _ _ _ rfl rfl)
  · intro i hik
    unfold precipRowLabel
    rw [if_neg]
    intro hcond
    rw [hmax] at hcond
    rw [show scalePrecipitation (JSNum.num (qListMax (probsQ f))) =
        JSNum.num ((jsRound (qmul (qListMax (probsQ f)) 5) : ℤ) : ℚ) from by
      show JSNum.round (JSNum.mul (JSNum.num (qListMax (probsQ f))) (JSNum.num 5)) = _
      rw [JSNum.mul_num, JSNum.round_num]] at hcond
    have hq : ((jsRound (qmul (qListMax (probsQ f)) 5) : ℤ) : ℚ) = ((i : ℕ) : ℚ) :=
      JSNum.num.inj hcond
    have hz : jsRound (qmul (qListMax (probsQ f)) 5) = (i : ℤ) := by exact_mod_cast hq
    apply hik
    omega
  · unfold renderPrecipitationGraph
    rw [if_neg]
    rw [hmax]
    intro h0
    have h1 : qListMax (probsQ f) = 0 := JSNum.num.inj h0
    rw [jsRound_eq, qmul_eq, h1] at hk
    norm_num at hk

/-- C4 witness: with maximum probability 0.5, `round(0.5 × 5) = 3` — row 3
carries the 9-character cyan bold label, row 2 keeps the blank slot. -/
theorem C4_witness :
    precipRowLabel forecastRain Format.tty 2 = PAD ∧
      ∃ lbl, precipRowLabel forecastRain Format.tty 3 = cyan (bold lbl Format.tty)
          Format.tty ∧ lbl.length = 9 := by
  have h := C4_label_row forecastRain Format.tty (by decide) (by decide) (by decide)
  rcases h with ⟨k, hk, hk1, hk5, ⟨lbl, hlbl, hlen, _⟩, hothers, _⟩
  have h3 : jsRound (qmul (qListMax (probsQ forecastRain)) 5) = 3 := by decide
  have hk3 : k = 3 := by omega
  subst hk3
  exact ⟨hothers 2 (by omega), ⟨lbl, hlbl, hlen⟩⟩
